import Mathlib

/-!
Verification development for the OpenTunnel relay server
(relay-server/src/server.ts) and tunnel client (TunnelClient).

The TypeScript sources are shallowly embedded: JS `Map`s become
association lists with JS `Map` semantics (`set` replaces in place or
appends, `delete` removes the key), promise resolution/rejection is
modelled by returning the resolved value / rejection message from the
operation that fires it, and `Math.random` driven slug generation is
modelled by an oracle `gen : Nat → String` giving the successive
outputs of `generateSlug`.  The regex based content rewriters are
embedded as character-list scanners that reproduce the exact
left-to-right, non-overlapping global-replace semantics of each regex
used by the source.
-/

namespace OpenTunnel

/-! ### JS `Map` semantics over association lists -/

/-- Lookup in a JS `Map` (`m.get(k)`). -/
def mapGet {α : Type} (k : String) : List (String × α) → Option α
  | [] => none
  | (k', v) :: rest => if k' = k then some v else mapGet k rest

/-- Membership test in a JS `Map` (`m.has(k)`). -/
def mapHas {α : Type} (k : String) (m : List (String × α)) : Bool :=
  (mapGet k m).isSome

/-- JS `m.set(k, v)`: replaces the value in place if the key exists,
otherwise appends the new entry at the end (insertion order). -/
def mapSet {α : Type} (k : String) (v : α) : List (String × α) → List (String × α)
  | [] => [(k, v)]
  | (k', v') :: rest => if k' = k then (k, v) :: rest else (k', v') :: mapSet k v rest

/-- JS `m.delete(k)`: removes the entry with key `k`. -/
def mapDelete {α : Type} (k : String) (m : List (String × α)) : List (String × α) :=
  m.filter (fun p => p.1 ≠ k)

/-! ### Configuration and data model (server.ts lines 19-59) -/

/-- Relay configuration, from the `config` object (server.ts lines 19-31).
Environment-variable parsing is modelled by the field values themselves;
`publicUrl = ""` models an unset `PUBLIC_URL` (falsy in JS). -/
structure Config where
  port : Nat
  httpsPort : Nat
  useHttps : Bool
  sslCert : String
  sslKey : String
  maxTunnels : Nat
  requestTimeout : Nat
  logLevel : String
  publicUrl : String
deriving DecidableEq

/-- Pending request record (`PendingRequest`, server.ts lines 44-49).
The `resolve`/`reject` sinks and the deadline timer are modelled by the
return values of the operations that fire them; only `startTime` is data. -/
structure PendingRequest where
  startTime : Nat
deriving DecidableEq

/-- Response delivered for one proxied request (`TunnelResponse`,
server.ts lines 51-55); `body` is the base64-encoded body string. -/
structure TunnelResponse where
  statusCode : Nat
  headers : List (String × String)
  body : String
deriving DecidableEq

/-- One live tunnel (`TunnelConnection`, server.ts lines 34-42).  The
WebSocket handle itself is not data; `connectedAt` is a timestamp. -/
structure TunnelConnection where
  tunnelId : String
  slug : String
  localPort : Nat
  connectedAt : Nat
  requestCount : Nat
  pendingRequests : List (String × PendingRequest)
deriving DecidableEq

/-- Process-wide relay state: the tunnel registry `tunnels` and the slug
index `slugToTunnel` (server.ts lines 58-59). -/
structure RelayState where
  tunnels : List (String × TunnelConnection)
  slugToTunnel : List (String × String)
deriving DecidableEq

/-! ### Base URL derivation (server.ts lines 91-117) -/

/-- Fixed cloud-platform substrings checked by `getBaseUrl`
(server.ts lines 101-102). -/
def cloudPatterns : List String :=
  [".onrender.com", ".railway.app", ".fly.dev",
   ".herokuapp.com", ".vercel.app", ".up.railway.app", ".azurewebsites.net"]

/-- Substring containment on character lists (JS `String.prototype.includes`). -/
def hasSubList (needle : List Char) : List Char → Bool
  | [] => needle.isEmpty
  | c :: cs => List.isPrefixOf needle (c :: cs) || hasSubList needle cs

/-- JS `hay.includes(needle)`. -/
def strIncludes (hay needle : String) : Bool :=
  hasSubList needle.data hay.data

/-- JS `s.replace(/\/$/, '')`: strips one trailing slash. -/
def stripTrailingSlashOnce (s : String) : String :=
  if s.endsWith "/" then s.dropRight 1 else s

/-- The scheme the relay itself serves on. -/
def schemeStr (cfg : Config) : String :=
  if cfg.useHttps then "https" else "http"

/-- The LAN fallback of `getBaseUrl` (server.ts lines 112-116), with the
machine's LAN IP supplied as a parameter (it comes from `os.networkInterfaces`). -/
def lanFallback (cfg : Config) (lanIp : String) : String :=
  schemeStr cfg ++ "://" ++ lanIp ++ ":" ++
    toString (if cfg.useHttps then cfg.httpsPort else cfg.port)

/-- Embedding of `getBaseUrl` (server.ts lines 91-117).  A `some ""`
host header is falsy in JS and falls through to the LAN fallback. -/
def getBaseUrl (cfg : Config) (hostHeader : Option String) (lanIp : String) : String :=
  if cfg.publicUrl ≠ "" then stripTrailingSlashOnce cfg.publicUrl
  else
    match hostHeader with
    | some h =>
      if h ≠ "" then
        if cloudPatterns.any (fun p => strIncludes h p) then "https://" ++ h
        else schemeStr cfg ++ "://" ++ h
      else lanFallback cfg lanIp
    | none => lanFallback cfg lanIp

/-- The spec's wording of the cloud check: the host MATCHES one of the
fixed cloud-platform SUFFIXES.  Stated from the spec (for comparison with
the source's substring check); not part of the embedding of the code. -/
def cloudSuffixMatch (h : String) : Bool :=
  cloudPatterns.any (fun p => List.isSuffixOf p.data h.data)

/-! ### Slug generation (server.ts lines 119-152) -/

/-- Adjective word list of `generateSlug` (server.ts lines 121-125). -/
def adjectives : List String :=
  ["swift", "bright", "calm", "eager", "fancy", "gentle", "happy",
   "jolly", "kind", "lively", "merry", "nice", "proud", "quick",
   "royal", "super", "tiny", "ultra", "vivid", "warm", "young", "zesty"]

/-- Noun word list of `generateSlug` (server.ts lines 126-130). -/
def nouns : List String :=
  ["apple", "beach", "cloud", "dream", "eagle", "flame", "grove",
   "heart", "island", "jewel", "kite", "lake", "moon", "nest",
   "ocean", "pearl", "quest", "river", "star", "tree", "wave", "zen"]

/-- Embedding of `generateSlug` (server.ts lines 120-135) with the three
`Math.random` draws supplied as indices (`ai < 22`, `ni < 22`, `num < 1000`). -/
def generateSlug (ai ni num : Nat) : String :=
  adjectives.getD ai "" ++ "-" ++ nouns.getD ni "" ++ "-" ++ toString num

/-- Single character class of the slug sanitiser: `[a-z0-9-]`. -/
def slugCharOk (c : Char) : Bool :=
  (decide ('a' ≤ c) && decide (c ≤ 'z')) ||
  (decide ('0' ≤ c) && decide (c ≤ '9')) || c = '-'

/-- Embedding of the requested-slug sanitiser (server.ts line 140):
`requested.toLowerCase().replace(/[^a-z0-9-]/g, '').slice(0, 63)`.
ASCII lowercasing; JS's full-Unicode `toLowerCase` differs only on
non-ASCII characters, which the filter removes anyway. -/
def sanitizeSlug (s : String) : String :=
  ⟨((s.data.map Char.toLower).filter slugCharOk).take 63⟩

/-- The do-while retry loop of `getUniqueSlug` (server.ts lines 145-151):
attempt `i` draws `gen i`; the loop continues while the draw collides and
fewer than 100 attempts were made (`attempts = i + 1`).  The fuel argument
(`100` at the call site) only makes the recursion structural; it is never
exhausted before the `attempts < 100` bound stops the loop. -/
def slugLoop (hasSlug : String → Bool) (gen : Nat → String) : Nat → Nat → String
  | 0, i => gen i
  | fuel + 1, i =>
    if hasSlug (gen i) && decide (i + 1 < 100) then slugLoop hasSlug gen fuel (i + 1)
    else gen i

/-- Embedding of `getUniqueSlug` (server.ts lines 138-152).  Note that
after 100 colliding attempts the last draw is returned UNCHECKED: there is
no rejection path for slug-collision exhaustion. -/
def getUniqueSlug (requested : Option String) (slugIndex : List (String × String))
    (gen : Nat → String) : String :=
  match requested with
  | some r =>
    if r ≠ "" then
      let sanitized := sanitizeSlug r
      if sanitized ≠ "" && !(mapHas sanitized slugIndex) then sanitized
      else slugLoop (fun s => mapHas s slugIndex) gen 100 0
    else slugLoop (fun s => mapHas s slugIndex) gen 100 0
  | none => slugLoop (fun s => mapHas s slugIndex) gen 100 0

/-! ### WebSocket handshake (server.ts lines 158-196) -/

/-- Outcome of a control-channel handshake: either an `error` frame
(followed by `ws.close()` when `closedAfter`), or the `connected` frame
with its `tunnelId`, `subdomain` (slug) and `publicUrl` fields. -/
inductive HandshakeOutcome where
  | rejected (message : String) (closedAfter : Bool)
  | connected (tunnelId slug publicUrl : String)
deriving DecidableEq

/-- Embedding of the connection handler (server.ts lines 158-196):
capacity check, slug allocation, registration in both maps, and the
`connected` confirmation frame.  `tid` is the client-supplied (or
uuid-generated) tunnel id, `gen` the oracle for `generateSlug` draws,
`now` the timestamp. -/
def handshakeConn (cfg : Config) (st : RelayState) (tid : String) (localPort : Nat)
    (requestedSlug : Option String) (gen : Nat → String)
    (hostHeader : Option String) (lanIp : String) (now : Nat) :
    HandshakeOutcome × RelayState :=
  if st.tunnels.length ≥ cfg.maxTunnels then
    (.rejected "Server at capacity. Please try again later." true, st)
  else
    (.connected tid (getUniqueSlug requestedSlug st.slugToTunnel gen)
       (getBaseUrl cfg hostHeader lanIp ++ "/t/" ++ getUniqueSlug requestedSlug st.slugToTunnel gen),
     { tunnels := mapSet tid
         { tunnelId := tid, slug := getUniqueSlug requestedSlug st.slugToTunnel gen,
           localPort := localPort, connectedAt := now, requestCount := 0,
           pendingRequests := [] } st.tunnels,
       slugToTunnel := mapSet (getUniqueSlug requestedSlug st.slugToTunnel gen) tid
         st.slugToTunnel })

/-! ### Teardown (server.ts lines 209-230) -/

/-- Observable effects of the `ws.on('close')` handlers (server.ts lines
209-217 and 230): the rejection fired on every pending record, the
connection object as the closure leaves it, whether the keepalive
interval was cleared, and the registry state after the deletions. -/
structure TeardownResult where
  rejections : List (String × String)
  finalConn : TunnelConnection
  keepaliveCleared : Bool
  state : RelayState
deriving DecidableEq

/-- Embedding of control-channel teardown (server.ts lines 209-217, 230):
every pending record is rejected with `Tunnel disconnected` (after its
deadline timer is cleared), the tunnel is deleted from the registry and
its slug from the index, and the keepalive interval is cleared.  The
handler iterates `connection.pendingRequests` but never clears it. -/
def wsCloseHandler (st : RelayState) (conn : TunnelConnection) : TeardownResult :=
  { rejections := conn.pendingRequests.map (fun p => (p.1, "Tunnel disconnected"))
    finalConn := conn
    keepaliveCleared := true
    state := { tunnels := mapDelete conn.tunnelId st.tunnels,
               slugToTunnel := mapDelete conn.slug st.slugToTunnel } }

/-! ### Request forwarding, responses, timeouts (server.ts lines 236-291, 421-659) -/

/-- The `request` frame sent to the tunnel client (server.ts lines 281-288). -/
structure RequestFrame where
  requestId : String
  method : String
  path : String
  headers : List (String × String)
  bodyB64 : String
deriving DecidableEq

/-- Embedding of the synchronous part of `forwardRequest` (server.ts lines
272-289): a pending record is installed under the fresh `requestId`, the
`request` frame is sent, and `requestCount` is incremented. -/
def forwardStart (conn : TunnelConnection) (requestId method path : String)
    (headers : List (String × String)) (bodyB64 : String) (now : Nat) :
    TunnelConnection × RequestFrame :=
  ({ conn with
      pendingRequests := mapSet requestId ⟨now⟩ conn.pendingRequests,
      requestCount := conn.requestCount + 1 },
   ⟨requestId, method, path, headers, bodyB64⟩)

/-- Embedding of the deadline timer callback (server.ts lines 274-277):
the pending record is deleted FIRST, then the promise is rejected with
`Request timeout` (the rejection message is the second component). -/
def requestTimeoutFire (conn : TunnelConnection) (requestId : String) :
    TunnelConnection × String :=
  ({ conn with pendingRequests := mapDelete requestId conn.pendingRequests },
   "Request timeout")

/-- Status and body written by the catch branch of the visitor handler
(server.ts lines 655-659) whenever the forward promise rejects; the
rejection message itself is only logged. -/
def visitorCatchReply (_errMsg : String) : Nat × String :=
  (502, "Failed to reach local server. Make sure your dev server is running.")

/-- An incoming `response` frame from the tunnel client; absent fields
are `none` (JS `undefined`). -/
structure ResponseMessage where
  requestId : String
  statusCode : Option Nat
  headers : Option (List (String × String))
  body : Option String
deriving DecidableEq

/-- JS `v || d` on an optional number: absent and `0` (falsy) both give `d`. -/
def jsOrNat (v : Option Nat) (d : Nat) : Nat :=
  match v with
  | some n => if n = 0 then d else n
  | none => d

/-- Embedding of `handleTunnelResponse` (server.ts lines 250-262): if the
frame's `requestId` matches a pending record, the record is removed and the
promise resolves with `statusCode || 200`, `headers || ` empty, `body || ''`;
otherwise nothing happens (the frame is dropped). -/
def handleTunnelResponse (conn : TunnelConnection) (m : ResponseMessage) :
    TunnelConnection × Option TunnelResponse :=
  match mapGet m.requestId conn.pendingRequests with
  | some _ =>
    ({ conn with pendingRequests := mapDelete m.requestId conn.pendingRequests },
     some { statusCode := jsOrNat m.statusCode 200,
            headers := m.headers.getD [],
            body := m.body.getD "" })
  | none => (conn, none)

/-- Hop-by-hop header filter applied when echoing response headers to the
visitor (server.ts lines 644-647): keys whose lowercase form is
`transfer-encoding`, `connection` or `keep-alive` are skipped. -/
def echoHeadersRelay (hs : List (String × String)) : List (String × String) :=
  hs.filter (fun kv =>
    !(["transfer-encoding", "connection", "keep-alive"].contains kv.1.toLower))

/-- Status line and headers of the visitor reply built from a resolved
`TunnelResponse` (server.ts lines 643-649). -/
def visitorReplyHead (resp : TunnelResponse) : Nat × List (String × String) :=
  (resp.statusCode, echoHeadersRelay resp.headers)

/-! ### Tunnel client header handling (TunnelClient.proxyRequest) -/

/-- Headers of the outbound HTTP request the client issues to the local
server (TunnelClient.proxyRequest): `\x7b ...request.headers \x7d` then
`delete headers['host']`, `delete headers['connection']`,
`delete headers['keep-alive']`.  `transfer-encoding` is NOT deleted here. -/
def clientOutboundHeaders (hs : List (String × String)) : List (String × String) :=
  mapDelete "keep-alive" (mapDelete "connection" (mapDelete "host" hs))

/-- Headers the client puts on its `response` frame
(TunnelClient.proxyRequest): the local response's headers with
`delete headers['transfer-encoding']`, `delete headers['connection']`. -/
def clientResponseHeaders (hs : List (String × String)) : List (String × String) :=
  mapDelete "connection" (mapDelete "transfer-encoding" hs)

/-! ### Reachable relay states -/

/-- Per-tunnel state update in the registry: the connection object for
`tid` is mutated in place (JS object aliasing), modelled by `mapSet`. -/
def stateWithConn (st : RelayState) (tid : String) (c : TunnelConnection) : RelayState :=
  { st with tunnels := mapSet tid c st.tunnels }

/-- Relay states reachable from startup: the empty registry, then any
interleaving of handshakes, teardowns, request dispatches, `response`
frames and deadline firings. -/
inductive Reachable (cfg : Config) : RelayState → Prop where
  | init : Reachable cfg ⟨[], []⟩
  | handshake {st} (tid : String) (localPort : Nat) (requestedSlug : Option String)
      (gen : Nat → String) (hostHeader : Option String) (lanIp : String) (now : Nat) :
      Reachable cfg st →
      Reachable cfg (handshakeConn cfg st tid localPort requestedSlug gen hostHeader lanIp now).2
  | close {st tid conn} :
      Reachable cfg st → mapGet tid st.tunnels = some conn →
      Reachable cfg (wsCloseHandler st conn).state
  | forward {st tid conn} (requestId method path : String)
      (headers : List (String × String)) (bodyB64 : String) (now : Nat) :
      Reachable cfg st → mapGet tid st.tunnels = some conn →
      Reachable cfg (stateWithConn st tid
        (forwardStart conn requestId method path headers bodyB64 now).1)
  | response {st tid conn} (m : ResponseMessage) :
      Reachable cfg st → mapGet tid st.tunnels = some conn →
      Reachable cfg (stateWithConn st tid (handleTunnelResponse conn m).1)
  | timeoutFire {st tid conn} (requestId : String) :
      Reachable cfg st → mapGet tid st.tunnels = some conn →
      Reachable cfg (stateWithConn st tid (requestTimeoutFire conn requestId).1)


/-! ### Content rewriter: regex passes as character scanners

Each `String.prototype.replace(regex, ...)` with the `g` flag scans the
body left to right; at each position it tries the pattern, and on a match
emits the replacement and resumes immediately after the matched text.
`scanWith` reproduces this for a matcher `probe` that, at a match, returns
the replacement together with the text following the matched span.  The
fuel argument (the input length at the top-level call) only makes the
recursion structural: every step consumes at least one character. -/

/-- Global-replace scanner: `probe l` returns `some (replacement, rest)`
when the regex matches at the head of `l` (with `rest` the text after the
matched span), else `none`. -/
def scanWith (probe : List Char → Option (List Char × List Char)) :
    Nat → List Char → List Char
  | 0, l => l
  | _ + 1, [] => []
  | fuel + 1, c :: cs =>
    match probe (c :: cs) with
    | some (rep, rest) => rep ++ scanWith probe fuel rest
    | none => c :: scanWith probe fuel cs

/-- Run a global replace over the whole input. -/
def runScan (probe : List Char → Option (List Char × List Char))
    (l : List Char) : List Char :=
  scanWith probe l.length l

/-- Apostrophe character (JS single quote). -/
def apos : Char := Char.ofNat 39

/-- Backtick character (JS template-literal quote). -/
def btick : Char := Char.ofNat 96

/-- Quote class `["']` used by the HTML and module-script regexes. -/
def isQuoteDS (c : Char) : Bool := c = '"' || c = apos

/-- Quote class including the backtick, used by the JS-file regexes. -/
def isQuoteDSB (c : Char) : Bool := isQuoteDS c || c = btick

/-- JS regex `\s` on the ASCII range (space, tab, LF, CR, VT, FF). -/
def isWsChar (c : Char) : Bool :=
  c = ' ' || c = '\t' || c = '\n' || c = '\r' || c = Char.ofNat 11 || c = Char.ofNat 12

/-- Case-insensitive prefix test (for regexes with the `i` flag). -/
def ciPrefix : List Char → List Char → Bool
  | [], _ => true
  | _ :: _, [] => false
  | p :: ps, c :: cs => (p.toLower == c.toLower) && ciPrefix ps cs

/-- The tunnel base `"/t/" ++ slug` interpolated into every replacement. -/
def tbase (slug : List Char) : List Char := '/' :: 't' :: '/' :: slug

/-- The tunnel path `"/t/" ++ slug ++ "/"`. -/
def tpath (slug : List Char) : List Char := tbase slug ++ ['/']

/-- Negative lookahead `(?!/|t/<slug>/)` applied to the text after the
matched `/`: the URL must not be protocol-relative and must not already
carry the tunnel prefix. -/
def lookaheadOk (slug l : List Char) : Bool :=
  !(List.isPrefixOf ['/'] l) && !(List.isPrefixOf ('t' :: '/' :: (slug ++ ['/'])) l)

/-- Matcher for `<name>=(["'])/(?!/|t/<slug>/)` with replacement
`<name>=$1/t/<slug>/` (server.ts lines 541-543, 545). -/
def tryAttrName (name slug l : List Char) : Option (List Char × List Char) :=
  if List.isPrefixOf (name ++ ['=']) l then
    match List.drop (name.length + 1) l with
    | q :: rest1 =>
      if isQuoteDS q then
        match rest1 with
        | '/' :: rest2 =>
          if lookaheadOk slug rest2 then some (name ++ '=' :: q :: tpath slug, rest2)
          else none
        | _ => none
      else none
    | [] => none
  else none

/-- Matcher for the alternation `(src|href|action)=(["'])/...`
(server.ts line 541); alternatives are tried in regex order. -/
def tryAttrAlt (slug l : List Char) : Option (List Char × List Char) :=
  match tryAttrName ['s', 'r', 'c'] slug l with
  | some r => some r
  | none =>
    match tryAttrName ['h', 'r', 'e', 'f'] slug l with
    | some r => some r
    | none => tryAttrName ['a', 'c', 't', 'i', 'o', 'n'] slug l

/-- Matcher for `url\((["']?)/(?!/|t/<slug>/)` with replacement
`url($1/t/<slug>/` (server.ts line 544): the optional quote is kept. -/
def tryUrlParenHtml (slug l : List Char) : Option (List Char × List Char) :=
  if List.isPrefixOf ['u', 'r', 'l', '('] l then
    match List.drop 4 l with
    | q :: rest1 =>
      if isQuoteDS q then
        match rest1 with
        | '/' :: rest2 =>
          if lookaheadOk slug rest2 then
            some (['u', 'r', 'l', '('] ++ q :: tpath slug, rest2)
          else none
        | _ => none
      else if q = '/' then
        if lookaheadOk slug rest1 then some (['u', 'r', 'l', '('] ++ tpath slug, rest1)
        else none
      else none
    | [] => none
  else none

/-- Matcher for `from\s*(["'])/(?!/|t/<slug>/)` with replacement
`from $1/t/<slug>/` (server.ts lines 554-557 and 596): matched whitespace
is collapsed to one space. -/
def tryFromKw (slug l : List Char) : Option (List Char × List Char) :=
  if List.isPrefixOf ['f', 'r', 'o', 'm'] l then
    match (List.drop 4 l).dropWhile isWsChar with
    | q :: '/' :: rest =>
      if isQuoteDS q && lookaheadOk slug rest then
        some (['f', 'r', 'o', 'm', ' '] ++ q :: tpath slug, rest)
      else none
    | _ => none
  else none

/-- Matcher for `import\s+(["'])/(?!/|t/<slug>/)` with replacement
`import $1/t/<slug>/` (server.ts lines 559-562 and 598). -/
def tryImportSp (slug l : List Char) : Option (List Char × List Char) :=
  if List.isPrefixOf ['i', 'm', 'p', 'o', 'r', 't'] l then
    if ((List.drop 6 l).takeWhile isWsChar).length ≥ 1 then
      match (List.drop 6 l).dropWhile isWsChar with
      | q :: '/' :: rest =>
        if isQuoteDS q && lookaheadOk slug rest then
          some (['i', 'm', 'p', 'o', 'r', 't', ' '] ++ q :: tpath slug, rest)
        else none
      | _ => none
    else none
  else none

/-- Matcher for `import\(\s*(<quotes>)/(?!/|t/<slug>/)` with replacement
`import($1/t/<slug>/` (server.ts lines 564-567 and 600); `allowBtick`
selects the JS-file quote class which also admits the backtick. -/
def tryImportCall (allowBtick : Bool) (slug l : List Char) :
    Option (List Char × List Char) :=
  if List.isPrefixOf ['i', 'm', 'p', 'o', 'r', 't', '('] l then
    match (List.drop 7 l).dropWhile isWsChar with
    | q :: '/' :: rest =>
      if (if allowBtick then isQuoteDSB q else isQuoteDS q) && lookaheadOk slug rest then
        some (['i', 'm', 'p', 'o', 'r', 't', '('] ++ q :: tpath slug, rest)
      else none
    | _ => none
  else none

/-- Matcher for `fetch\(\s*(['"`])/(?!/|t/<slug>/)` with replacement
`fetch($1/t/<slug>/` (server.ts line 603). -/
def tryFetchCall (slug l : List Char) : Option (List Char × List Char) :=
  if List.isPrefixOf ['f', 'e', 't', 'c', 'h', '('] l then
    match (List.drop 6 l).dropWhile isWsChar with
    | q :: '/' :: rest =>
      if isQuoteDSB q && lookaheadOk slug rest then
        some (['f', 'e', 't', 'c', 'h', '('] ++ q :: tpath slug, rest)
      else none
    | _ => none
  else none

/-- Matcher for `new\s+URL\(\s*(['"`])/(?!/|t/<slug>/)` with replacement
`new URL($1/t/<slug>/` (server.ts line 606). -/
def tryNewUrl (slug l : List Char) : Option (List Char × List Char) :=
  if List.isPrefixOf ['n', 'e', 'w'] l then
    if ((List.drop 3 l).takeWhile isWsChar).length ≥ 1 then
      if List.isPrefixOf ['U', 'R', 'L', '('] ((List.drop 3 l).dropWhile isWsChar) then
        match (List.drop 4 ((List.drop 3 l).dropWhile isWsChar)).dropWhile isWsChar with
        | q :: '/' :: rest =>
          if isQuoteDSB q && lookaheadOk slug rest then
            some (['n', 'e', 'w', ' ', 'U', 'R', 'L', '('] ++ q :: tpath slug, rest)
          else none
        | _ => none
      else none
    else none
  else none

/-- Literal prefix `//# sourceMappingURL=` of the source-map regex. -/
def srcMapPat : List Char :=
  ['/', '/', '#', ' ', 's', 'o', 'u', 'r', 'c', 'e', 'M', 'a', 'p', 'p', 'i',
   'n', 'g', 'U', 'R', 'L', '=']

/-- Matcher for `//# sourceMappingURL=/(?!/|t/<slug>/)` with replacement
`//# sourceMappingURL=/t/<slug>/` (server.ts line 609). -/
def trySrcMap (slug l : List Char) : Option (List Char × List Char) :=
  if List.isPrefixOf (srcMapPat ++ ['/']) l then
    let rest := List.drop (srcMapPat.length + 1) l
    if lookaheadOk slug rest then some (srcMapPat ++ tpath slug, rest) else none
  else none

/-- Matcher for the CSS pass `url\(["']?\/(?!\/)` with replacement
`url(/t/<slug>/` (server.ts line 634): the optional quote is DROPPED by
the replacement and the lookahead only excludes `//` — an existing
`/t/<slug>/` prefix is NOT excluded. -/
def tryCssUrl (slug l : List Char) : Option (List Char × List Char) :=
  if List.isPrefixOf ['u', 'r', 'l', '('] l then
    match List.drop 4 l with
    | q :: rest1 =>
      if isQuoteDS q then
        match rest1 with
        | '/' :: rest2 =>
          if !(List.isPrefixOf ['/'] rest2) then
            some (['u', 'r', 'l', '('] ++ tpath slug, rest2)
          else none
        | _ => none
      else if q = '/' then
        if !(List.isPrefixOf ['/'] rest1) then
          some (['u', 'r', 'l', '('] ++ tpath slug, rest1)
        else none
      else none
    | [] => none
  else none

/-- Matcher for the CSS pass `@import\s+["']\/(?!\/)` with replacement
`@import "/t/<slug>/` (server.ts line 637): whitespace collapses to one
space, the quote is normalised to `"`, and again only `//` is excluded. -/
def tryCssImport (slug l : List Char) : Option (List Char × List Char) :=
  if List.isPrefixOf ['@', 'i', 'm', 'p', 'o', 'r', 't'] l then
    if ((List.drop 7 l).takeWhile isWsChar).length ≥ 1 then
      match (List.drop 7 l).dropWhile isWsChar with
      | q :: '/' :: rest =>
        if isQuoteDS q && !(List.isPrefixOf ['/'] rest) then
          some (['@', 'i', 'm', 'p', 'o', 'r', 't', ' ', '"'] ++ tpath slug, rest)
        else none
      | _ => none
    else none
  else none
/-- First part of the `urlRewriteScript` template literal (server.ts
lines 449-454), up to the `tunnelBase` interpolation. -/
def shimA : String :=
  "<script data-opentunnel-injected=\"true\">\n(function() \x7b\n    if (window.__opentunnelInitialized) return;\n    window.__opentunnelInitialized = true;\n    \n    var tunnelBase = \""

/-- First chunk of the `shimB` text (split only to keep kernel
evaluation shallow; `shimB = shimB1 ++ shimB2`). -/
def shimB1 : String :=
  "\";\n    \n    // Helper to rewrite URLs\n    function rewriteUrl(url) \x7b\n        if (typeof url !== 'string') return url;\n        if (url.startsWith('/') && !url.startsWith('//') && !url.startsWith(tunnelBase + '/') && url !== tunnelBase) \x7b\n            return tunnelBase + url;\n        \x7d\n        return url;\n    \x7d\n    \n    // Patch fetch\n    var originalFetch = window.fetch;\n    window.fetch = function(input, init) \x7b\n        if (typeof input === 'string') \x7b\n            input = rewriteUrl(input);\n        \x7d else if (input && input.url) \x7b\n            input = new Request(rewriteUrl(input.url), input);\n        \x7d\n        return originalFetch.call(this, input, init);\n    \x7d;\n    \n    // Patch XMLHttpRequest\n    var originalXHROpen = XMLHttpRequest.prototype.open;\n    XMLHttpRequest.prototype.open = function(method, url) \x7b\n        arguments[1] = rewriteUrl(url);\n        return originalXHROpen.apply(this, arguments);\n    \x7d;\n    \n    // Patch history for SPA routing\n    var originalPushState = history.pushState;\n    history.pushState = function(state, title, url) \x7b\n        if (url) arguments[2] = rewriteUrl(url);\n        return originalPushState.apply(this, arguments);\n    \x7d;\n    var originalReplaceState = history.replaceState;\n    history.replaceState = function(state, title, url) \x7b\n        if (url) arguments[2] = rewriteUrl(url);\n        return originalReplaceState.apply(this, arguments);\n    \x7d;\n    \n    // Patch DOM element property setters\n    var patchProp = function(proto, prop) \x7b\n        var desc = Object.getOwnPropertyDescriptor(proto, prop);\n        if (desc && desc.set) \x7b\n            Object.definePro"

/-- Second chunk of the `shimB` text. -/
def shimB2 : String :=
  "perty(proto, prop, \x7b\n                set: function(val) \x7b desc.set.call(this, rewriteUrl(val)); \x7d,\n                get: desc.get\n            \x7d);\n        \x7d\n    \x7d;\n    patchProp(HTMLImageElement.prototype, 'src');\n    patchProp(HTMLScriptElement.prototype, 'src');\n    patchProp(HTMLLinkElement.prototype, 'href');\n    \n    // Patch WebSocket — allow Vite HMR to fail gracefully\n    var OriginalWebSocket = window.WebSocket;\n    window.WebSocket = function(url, protocols) \x7b\n        try \x7b\n            if (url && typeof url === 'string' && url.startsWith('/') && !url.startsWith('//')) \x7b\n                var loc = window.location;\n                var wsProto = loc.protocol === 'https:' ? 'wss:' : 'ws:';\n                url = wsProto + '//' + loc.host + rewriteUrl(url);\n            \x7d\n            return protocols ? new OriginalWebSocket(url, protocols) : new OriginalWebSocket(url);\n        \x7d catch(e) \x7b\n            console.warn('[OpenTunnel] WebSocket suppressed:', e.message);\n            // Return a dummy WebSocket-like object so Vite HMR does not crash\n            return \x7b readyState: 3, send: function()\x7b\x7d, close: function()\x7b\x7d, addEventListener: function()\x7b\x7d, removeEventListener: function()\x7b\x7d, OPEN: 1, CLOSED: 3 \x7d;\n        \x7d\n    \x7d;\n    window.WebSocket.prototype = OriginalWebSocket.prototype;\n    window.WebSocket.CONNECTING = 0; window.WebSocket.OPEN = 1;\n    window.WebSocket.CLOSING = 2;    window.WebSocket.CLOSED = 3;\n    \n    // Patch EventSource\n    if (window.EventSource) \x7b\n        var OrigES = window.EventSource;\n        window.EventSource = function(url, c) \x7b return new OrigES(rewriteUrl(url), c); \x7d;\n        window.EventSource.prototype = OrigES.prototype;\n    \x7d\n    \n    console.log('[OpenTunnel] URL rewriting active for:', tunnelBase);\n\x7d)();\n</script>"

/-- Remainder of the `urlRewriteScript` template literal (server.ts
lines 454-538), after the `tunnelBase` interpolation. -/
def shimB : String :=
  shimB1 ++ shimB2

/-- The injected runtime shim for a given tunnel base (server.ts
lines 449-538): `urlRewriteScript` with `tunnelBase` interpolated once. -/
def urlRewriteScript (tunnelBase : String) : String :=
  shimA ++ tunnelBase ++ shimB

/-- Prelude prepended to `@vite/client` bodies (server.ts line 616). -/
def vitePrelude : String :=
  "if(!window.__OrigWS)window.__OrigWS=WebSocket;\n"

/-- Replacement for every `new\s+WebSocket\s*\(` occurrence in
`@vite/client` bodies (server.ts lines 618-621). -/
def viteWrapper : String :=
  "new (function(__wsUrl,__wsPr)\x7btry\x7breturn new(window.__OrigWS||WebSocket)(__wsUrl,__wsPr)\x7dcatch(e)\x7bconsole.warn(\"[OpenTunnel] HMR suppressed\");return\x7breadyState:3,send:function()\x7b\x7d,close:function()\x7b\x7d,addEventListener:function(t,h)\x7bif(t===\"close\"||t===\"error\")setTimeout(function()\x7btry\x7bh(\x7btype:t\x7d)\x7dcatch(e)\x7b\x7d\x7d,100)\x7d,removeEventListener:function()\x7b\x7d,OPEN:1,CLOSED:3\x7d\x7d\x7d)("

/-- Scan for the first case-insensitive occurrence of `pat`, returning the
text before it, the occurrence as written, and the text after (used for
the lazy `[\s\S]*?(<\/script>)` part of the module-script regex). -/
def splitCi (pat : List Char) : Nat → List Char → Option (List Char × List Char × List Char)
  | 0, _ => none
  | _ + 1, [] => none
  | fuel + 1, c :: cs =>
    if ciPrefix pat (c :: cs) then
      some ([], List.take pat.length (c :: cs), List.drop pat.length (c :: cs))
    else
      match splitCi pat fuel cs with
      | some (pre, occ, post) => some (c :: pre, occ, post)
      | none => none

/-- Does `type\s*=\s*["']module["']` (case-insensitively on the letters)
match at the head of `l`? -/
def typeModuleAt (l : List Char) : Bool :=
  if ciPrefix ['t', 'y', 'p', 'e'] l then
    match (List.drop 4 l).dropWhile isWsChar with
    | '=' :: r2 =>
      (match r2.dropWhile isWsChar with
       | q :: r4 =>
         isQuoteDS q &&
         (if ciPrefix ['m', 'o', 'd', 'u', 'l', 'e'] r4 then
            (match List.drop 6 r4 with
             | q2 :: _ => isQuoteDS q2
             | [] => false)
          else false)
       | [] => false)
    | _ => false
  else false

/-- Does the open-tag span (the `[^>]*type\s*=\s*["']module["'][^>]*` part)
contain the `type=module` attribute pattern anywhere? -/
def spanHasTypeModule : Nat → List Char → Bool
  | 0, _ => false
  | _ + 1, [] => false
  | fuel + 1, c :: cs => typeModuleAt (c :: cs) || spanHasTypeModule fuel cs

/-- The three rewrites applied inside an inline `<script type="module">`
body (server.ts lines 552-567): `from`, bare `import`, then `import(`. -/
def moduleInner (slug body : List Char) : List Char :=
  runScan (tryImportCall false slug)
    (runScan (tryImportSp slug) (runScan (tryFromKw slug) body))

/-- Matcher for the whole inline-module regex
`(<script[^>]*type\s*=\s*["']module["'][^>]*>)([\s\S]*?)(<\/script>)` with
the `gi` flags (server.ts lines 550-570): the open tag is `<script`
followed by a `>`-free span containing `type=module`, the body runs
lazily to the first `</script>`, and both captured tags are kept as
written while the body is rewritten by `moduleInner`. -/
def tryModuleBlock (slug l : List Char) : Option (List Char × List Char) :=
  if ciPrefix ['<', 's', 'c', 'r', 'i', 'p', 't'] l then
    match (List.drop 7 l).dropWhile (fun d => d != '>') with
    | '>' :: afterOpen =>
      if spanHasTypeModule ((List.drop 7 l).takeWhile (fun d => d != '>')).length
          ((List.drop 7 l).takeWhile (fun d => d != '>')) then
        match splitCi ['<', '/', 's', 'c', 'r', 'i', 'p', 't', '>']
            afterOpen.length afterOpen with
        | some (body, closeTxt, afterClose) =>
          some (List.take 7 l ++ (List.drop 7 l).takeWhile (fun d => d != '>') ++
                  '>' :: moduleInner slug body ++ closeTxt,
                afterClose)
        | none => none
      else none
    | _ => none
  else none

/-- Find the first case-insensitive `<tag[^>]*>` and insert `ins` right
after its `>` (the `html.replace(/<tag([^>]*)>/i, ...)` injections of
server.ts lines 572-579); `none` when the tag does not occur. -/
def injectAfterTag (tag ins : List Char) : Nat → List Char → Option (List Char)
  | 0, _ => none
  | _ + 1, [] => none
  | fuel + 1, c :: cs =>
    let tryHere : Option (List Char) :=
      if ciPrefix ('<' :: tag) (c :: cs) then
        let after := List.drop (tag.length + 1) (c :: cs)
        match after.dropWhile (fun d => d != '>') with
        | '>' :: rest2 =>
          some (List.take (tag.length + 1) (c :: cs) ++
                after.takeWhile (fun d => d != '>') ++ '>' :: ins ++ rest2)
        | _ => none
      else none
    match tryHere with
    | some r => some r
    | none =>
      match injectAfterTag tag ins fuel cs with
      | some r => some (c :: r)
      | none => none

/-- Character list of the shim injected for a slug: `urlRewriteScript`
applied to the tunnel base `"/t/" ++ slug`. -/
def shimFor (slug : List Char) : List Char :=
  (urlRewriteScript (String.mk (tbase slug))).data

/-- Shim injection (server.ts lines 572-581): after `<head...>` if
present, else wrapped in a synthesised `<head>` after `<html...>`, else
after `<body...>`, else prepended to the whole body. -/
def injectScriptStep (slug html : List Char) : List Char :=
  match injectAfterTag ['h', 'e', 'a', 'd'] (shimFor slug) html.length html with
  | some r => r
  | none =>
    match injectAfterTag ['h', 't', 'm', 'l']
        (('<' :: 'h' :: 'e' :: 'a' :: 'd' :: '>' :: shimFor slug) ++
         ['<', '/', 'h', 'e', 'a', 'd', '>']) html.length html with
    | some r => r
    | none =>
      match injectAfterTag ['b', 'o', 'd', 'y'] (shimFor slug) html.length html with
      | some r => r
      | none => shimFor slug ++ html

/-- The five attribute passes and the inline-module pass of the HTML
rewriter, in source order (server.ts lines 541-570), WITHOUT the shim
injection. -/
def htmlUrlPasses (slug html : List Char) : List Char :=
  runScan (tryModuleBlock slug)
    (runScan (tryAttrName ['c', 'o', 'n', 't', 'e', 'n', 't'] slug)
      (runScan (tryUrlParenHtml slug)
        (runScan (tryAttrName ['d', 'a', 't', 'a', '-', 's', 'r', 'c'] slug)
          (runScan (tryAttrName ['s', 'r', 'c', 's', 'e', 't'] slug)
            (runScan (tryAttrAlt slug) html)))))

/-- Full HTML body rewrite for `text/html` responses (server.ts lines
443-585): attribute rewrites, inline-module rewrites, then shim injection. -/
def rewriteHtmlL (slug html : List Char) : List Char :=
  injectScriptStep slug (htmlUrlPasses slug html)

/-- String-level HTML rewrite. -/
def rewriteHtml (slug html : String) : String :=
  String.mk (rewriteHtmlL slug.data html.data)

/-- The six documented JavaScript passes in source order (server.ts lines
596-609): `from`, bare `import`, `import(`, `fetch(`, `new URL(`,
`sourceMappingURL`. -/
def rewriteJsBaseL (slug js : List Char) : List Char :=
  runScan (trySrcMap slug)
    (runScan (tryNewUrl slug)
      (runScan (tryFetchCall slug)
        (runScan (tryImportCall true slug)
          (runScan (tryImportSp slug) (runScan (tryFromKw slug) js)))))

/-- Matcher for `new\s+WebSocket\s*\(` with the `viteWrapper` replacement
(server.ts lines 618-621). -/
def tryNewWs (l : List Char) : Option (List Char × List Char) :=
  if List.isPrefixOf ['n', 'e', 'w'] l then
    if ((List.drop 3 l).takeWhile isWsChar).length ≥ 1 then
      if List.isPrefixOf ['W', 'e', 'b', 'S', 'o', 'c', 'k', 'e', 't']
          ((List.drop 3 l).dropWhile isWsChar) then
        match (List.drop 9 ((List.drop 3 l).dropWhile isWsChar)).dropWhile isWsChar with
        | '(' :: rest => some (viteWrapper.data, rest)
        | _ => none
      else none
    else none
  else none

/-- Full JavaScript body rewrite for `javascript`/`typescript` responses
(server.ts lines 589-626): the six base passes, then — exactly when the
forwarded path contains `@vite/client` — the prelude prepend and the
WebSocket-constructor wrapping. -/
def rewriteJsL (slug path js : List Char) : List Char :=
  let base := rewriteJsBaseL slug js
  if hasSubList ['@', 'v', 'i', 't', 'e', '/', 'c', 'l', 'i', 'e', 'n', 't'] path then
    runScan tryNewWs (vitePrelude.data ++ base)
  else base

/-- String-level JavaScript rewrite. -/
def rewriteJs (slug path js : String) : String :=
  String.mk (rewriteJsL slug.data path.data js.data)

/-- CSS body rewrite for `text/css` responses (server.ts lines 629-641):
the `url(` pass then the `@import` pass. -/
def rewriteCssL (slug css : List Char) : List Char :=
  runScan (tryCssImport slug) (runScan (tryCssUrl slug) css)

/-- String-level CSS rewrite. -/
def rewriteCss (slug css : String) : String :=
  String.mk (rewriteCssL slug.data css.data)


/-- Character-class check for an entire slug: all characters in `[a-z0-9-]`. -/
def slugOkL (s : List Char) : Bool := s.all slugCharOk

/-! ### Witness fixtures -/

/-- The documented default configuration (server.ts lines 19-31). -/
def cfgDefault : Config :=
  { port := 8080, httpsPort := 8443, useHttps := false, sslCert := "", sslKey := "",
    maxTunnels := 1000, requestTimeout := 30000, logLevel := "info", publicUrl := "" }

/-- Default configuration with `MAX_TUNNELS=0`. -/
def cfgCap0 : Config := { cfgDefault with maxTunnels := 0 }

/-- Default configuration with `MAX_TUNNELS=2`. -/
def cfgCap2 : Config := { cfgDefault with maxTunnels := 2 }

/-- A live tunnel `t0` on slug `a` with no pending requests. -/
def connA : TunnelConnection :=
  { tunnelId := "t0", slug := "a", localPort := 3000, connectedAt := 0,
    requestCount := 0, pendingRequests := [] }

/-- Relay state with the single tunnel `connA` registered. -/
def stA : RelayState := ⟨[("t0", connA)], [("a", "t0")]⟩

/-- A live tunnel `t0` on slug `a` with one pending request `r1`. -/
def connPend : TunnelConnection :=
  { tunnelId := "t0", slug := "a", localPort := 3000, connectedAt := 0,
    requestCount := 1, pendingRequests := [("r1", ⟨5⟩)] }

/-- Relay state with the single tunnel `connPend` registered. -/
def stPend : RelayState := ⟨[("t0", connPend)], [("a", "t0")]⟩

/-- The requested slug gives no usable sanitised slug: it is absent, empty,
sanitises to empty, or is already taken (server.ts lines 139-144). -/
def requestedUnusable (requested : Option String) (slugIndex : List (String × String)) : Prop :=
  match requested with
  | none => True
  | some r => r = "" ∨ sanitizeSlug r = "" ∨ mapHas (sanitizeSlug r) slugIndex = true

/-! ### Decidable no-match conditions for scanner-identity proofs -/

/-- Boolean condition: the matcher fires at no suffix of `l`. -/
def tailsAllNone (probe : List Char → Option (List Char × List Char)) (l : List Char) : Bool :=
  l.tails.all (fun t => (probe t).isNone)

/-- Boolean condition: the matcher fires at no suffix of `X1 ++ X2` that
starts inside `X1` (used to cover a long text by two chunks). -/
def boundaryAllNone (probe : List Char → Option (List Char × List Char))
    (X1 X2 : List Char) : Bool :=
  X1.tails.all (fun a' => (probe (a' ++ X2)).isNone)

/-- First chunk of `"<head>" ++ shim ++ "</head>"` for slug `x` (the
result of rewriting `<head></head>`), split for shallow kernel evaluation. -/
def c5X1 : List Char := ("<head>" ++ shimA ++ "/t/x" ++ shimB1).data

/-- Second chunk of `"<head>" ++ shim ++ "</head>"` for slug `x`. -/
def c5X2 : List Char := (shimB2 ++ "</head>").data

/-! ### Lemmas about the JS map operations -/

theorem mapGet_cons {α : Type} (k : String) (p : String × α) (rest : List (String × α)) :
    mapGet k (p :: rest) = if p.1 = k then some p.2 else mapGet k rest := by
  cases p; rfl

theorem mapDelete_cons {α : Type} (k : String) (p : String × α) (rest : List (String × α)) :
    mapDelete k (p :: rest) =
      if p.1 = k then mapDelete k rest else p :: mapDelete k rest := by
  by_cases hp : p.1 = k <;> simp [mapDelete, List.filter_cons, hp]

theorem mapGet_mapDelete_self {α : Type} (k : String) (m : List (String × α)) :
    mapGet k (mapDelete k m) = none := by
  induction m with
  | nil => rfl
  | cons p rest ih =>
    rw [mapDelete_cons]
    by_cases h : p.1 = k
    · simpa [h] using ih
    · simpa [mapGet_cons, h] using ih

theorem mapGet_mapDelete_ne {α : Type} (k k' : String) (m : List (String × α))
    (h : k ≠ k') : mapGet k (mapDelete k' m) = mapGet k m := by
  induction m with
  | nil => rfl
  | cons p rest ih =>
    rw [mapDelete_cons, mapGet_cons]
    by_cases hp : p.1 = k'
    · have hpk : p.1 ≠ k := fun hk => h (hk ▸ hp : k = k')
      simp [hp, hpk, ih, Ne.symm h]
    · rw [if_neg hp, mapGet_cons]
      by_cases hk : p.1 = k <;> simp [hk, ih]

theorem mapGet_mapSet_self {α : Type} (k : String) (v : α) (m : List (String × α)) :
    mapGet k (mapSet k v m) = some v := by
  induction m with
  | nil => simp [mapSet, mapGet]
  | cons p rest ih =>
    by_cases h : p.1 = k
    · simp [mapSet, h, mapGet]
    · simp [mapSet, h, mapGet, ih]

theorem length_mapSet_le {α : Type} (k : String) (v : α) (m : List (String × α)) :
    (mapSet k v m).length ≤ m.length + 1 := by
  induction m with
  | nil => simp [mapSet]
  | cons p rest ih =>
    by_cases h : p.1 = k
    · simp [mapSet, h]
    · simp [mapSet, h]
      omega

theorem length_mapSet_of_mapGet {α : Type} (k : String) (v c : α) (m : List (String × α))
    (h : mapGet k m = some c) : (mapSet k v m).length = m.length := by
  induction m with
  | nil => simp [mapGet] at h
  | cons p rest ih =>
    by_cases hp : p.1 = k
    · simp [mapSet, hp]
    · simp [mapGet, hp] at h
      simp [mapSet, hp, ih h]

theorem length_mapDelete_le {α : Type} (k : String) (m : List (String × α)) :
    (mapDelete k m).length ≤ m.length :=
  List.length_filter_le _ m

/-! ### General lemmas about the scanners -/

theorem strDataAppend (a b : String) : (a ++ b).data = a.data ++ b.data := by
  cases a; cases b; rfl

theorem strEqOfData {a b : String} (h : a.data = b.data) : a = b := by
  cases a; cases b; cases h; rfl

theorem scanWith_nil (probe : List Char → Option (List Char × List Char)) (fuel : Nat) :
    scanWith probe fuel [] = [] := by cases fuel <;> rfl

theorem scanWith_succ_cons (probe : List Char → Option (List Char × List Char))
    (fuel : Nat) (c : Char) (cs : List Char) :
    scanWith probe (fuel + 1) (c :: cs) =
      match probe (c :: cs) with
      | some (rep, rest) => rep ++ scanWith probe fuel rest
      | none => c :: scanWith probe fuel cs := rfl

theorem scanNoMatch {probe : List Char → Option (List Char × List Char)} :
    ∀ (fuel : Nat) (l : List Char), (∀ t, t <:+ l → probe t = none) →
      scanWith probe fuel l = l
  | 0, _, _ => rfl
  | _ + 1, [], _ => rfl
  | fuel + 1, c :: cs, h => by
    rw [scanWith_succ_cons, h (c :: cs) (List.suffix_refl _)]
    exact congrArg (c :: ·)
      (scanNoMatch fuel cs (fun t ht => h t (ht.trans (List.suffix_cons c cs))))

theorem suffix_append_split {t a b : List Char} (h : t <:+ a ++ b) :
    t <:+ b ∨ ∃ a', a' <:+ a ∧ t = a' ++ b := by
  induction a with
  | nil => exact Or.inl (by simpa using h)
  | cons x xs ih =>
    obtain ⟨u, hu⟩ := h
    cases u with
    | nil =>
      right
      exact ⟨x :: xs, List.suffix_refl _, by simpa using hu⟩
    | cons y u' =>
      rw [List.cons_append] at hu
      injection hu with h1 h2
      rcases ih ⟨u', h2⟩ with h3 | ⟨a', ha', rfl⟩
      · exact Or.inl h3
      · exact Or.inr ⟨a', ha'.trans (List.suffix_cons x xs), rfl⟩

theorem probe_none_of_tailsAllNone {probe : List Char → Option (List Char × List Char)}
    {l : List Char} (h : tailsAllNone probe l = true) {t : List Char} (ht : t <:+ l) :
    probe t = none := by
  have := List.all_eq_true.mp h t ((List.mem_tails _ _).mpr ht)
  simpa using this

theorem scanId_chunks {probe : List Char → Option (List Char × List Char)}
    (X1 X2 : List Char) (h2 : tailsAllNone probe X2 = true)
    (hb : boundaryAllNone probe X1 X2 = true) (fuel : Nat) :
    scanWith probe fuel (X1 ++ X2) = X1 ++ X2 := by
  apply scanNoMatch
  intro t ht
  rcases suffix_append_split ht with h | ⟨a', ha', rfl⟩
  · exact probe_none_of_tailsAllNone h2 h
  · have := List.all_eq_true.mp hb a' ((List.mem_tails _ _).mpr ha')
    simpa using this

/-! ### The shim-carrying output of rewriting an empty head (claim C5) -/

set_option maxRecDepth 1000000 in
theorem c5cond1a : tailsAllNone (tryAttrAlt ['x']) c5X2 = true := by decide
set_option maxRecDepth 1000000 in
theorem c5cond1b : boundaryAllNone (tryAttrAlt ['x']) c5X1 c5X2 = true := by decide
set_option maxRecDepth 1000000 in
theorem c5cond2a : tailsAllNone (tryAttrName ['s','r','c','s','e','t'] ['x']) c5X2 = true := by
  decide
set_option maxRecDepth 1000000 in
theorem c5cond2b : boundaryAllNone (tryAttrName ['s','r','c','s','e','t'] ['x']) c5X1 c5X2 = true := by
  decide
set_option maxRecDepth 1000000 in
theorem c5cond3a : tailsAllNone (tryAttrName ['d','a','t','a','-','s','r','c'] ['x']) c5X2 = true := by
  decide
set_option maxRecDepth 1000000 in
theorem c5cond3b : boundaryAllNone (tryAttrName ['d','a','t','a','-','s','r','c'] ['x']) c5X1 c5X2 = true := by
  decide
set_option maxRecDepth 1000000 in
theorem c5cond4a : tailsAllNone (tryUrlParenHtml ['x']) c5X2 = true := by decide
set_option maxRecDepth 1000000 in
theorem c5cond4b : boundaryAllNone (tryUrlParenHtml ['x']) c5X1 c5X2 = true := by decide
set_option maxRecDepth 1000000 in
theorem c5cond5a : tailsAllNone (tryAttrName ['c','o','n','t','e','n','t'] ['x']) c5X2 = true := by
  decide
set_option maxRecDepth 1000000 in
theorem c5cond5b : boundaryAllNone (tryAttrName ['c','o','n','t','e','n','t'] ['x']) c5X1 c5X2 = true := by
  decide
set_option maxRecDepth 1000000 in
theorem c5cond6a : tailsAllNone (tryModuleBlock ['x']) c5X2 = true := by decide
set_option maxRecDepth 1000000 in
theorem c5cond6b : boundaryAllNone (tryModuleBlock ['x']) c5X1 c5X2 = true := by decide

theorem c5PassesId :
    htmlUrlPasses ['x'] (c5X1 ++ c5X2) = c5X1 ++ c5X2 := by
  unfold htmlUrlPasses runScan
  rw [scanId_chunks c5X1 c5X2 c5cond1a c5cond1b,
      scanId_chunks c5X1 c5X2 c5cond2a c5cond2b,
      scanId_chunks c5X1 c5X2 c5cond3a c5cond3b,
      scanId_chunks c5X1 c5X2 c5cond4a c5cond4b,
      scanId_chunks c5X1 c5X2 c5cond5a c5cond5b,
      scanId_chunks c5X1 c5X2 c5cond6a c5cond6b]

theorem injectAfterTag_head (ins rest : List Char) (fuel : Nat) :
    injectAfterTag ['h', 'e', 'a', 'd'] ins (fuel + 1)
      ('<' :: 'h' :: 'e' :: 'a' :: 'd' :: '>' :: rest) =
      some ('<' :: 'h' :: 'e' :: 'a' :: 'd' :: '>' :: (ins ++ rest)) := rfl

theorem injectScriptStep_head (slug rest : List Char) :
    injectScriptStep slug ('<' :: 'h' :: 'e' :: 'a' :: 'd' :: '>' :: rest) =
      '<' :: 'h' :: 'e' :: 'a' :: 'd' :: '>' :: (shimFor slug ++ rest) := by
  unfold injectScriptStep
  rw [show ('<' :: 'h' :: 'e' :: 'a' :: 'd' :: '>' :: rest).length = rest.length + 5 + 1
      by simp]
  rw [injectAfterTag_head]

theorem shimFor_x : shimFor ['x'] = (urlRewriteScript "/t/x").data := rfl

theorem c5split :
    ("<head>" ++ urlRewriteScript "/t/x" ++ "</head>").data = c5X1 ++ c5X2 := by
  simp [c5X1, c5X2, strDataAppend, urlRewriteScript, shimB, List.append_assoc]

set_option maxRecDepth 10000 in
theorem c5OnceEq :
    rewriteHtml "x" "<head></head>" = "<head>" ++ urlRewriteScript "/t/x" ++ "</head>" := by
  unfold rewriteHtml rewriteHtmlL
  have h1 : htmlUrlPasses "x".data "<head></head>".data = "<head></head>".data := by decide
  rw [h1]
  rw [show ("<head></head>" : String).data =
      '<' :: 'h' :: 'e' :: 'a' :: 'd' :: '>' :: ("</head>" : String).data from rfl]
  rw [show ("x" : String).data = ['x'] from rfl]
  rw [injectScriptStep_head, shimFor_x]
  apply strEqOfData
  simp [strDataAppend]

set_option maxRecDepth 10000 in
theorem c5TwiceEq :
    rewriteHtml "x" (rewriteHtml "x" "<head></head>") =
      "<head>" ++ urlRewriteScript "/t/x" ++ urlRewriteScript "/t/x" ++ "</head>" := by
  rw [c5OnceEq]
  unfold rewriteHtml rewriteHtmlL
  rw [show ("x" : String).data = ['x'] from rfl, c5split, c5PassesId]
  rw [show c5X1 ++ c5X2 =
      '<' :: 'h' :: 'e' :: 'a' :: 'd' :: '>' ::
        ((urlRewriteScript "/t/x").data ++ ("</head>" : String).data) from by
    rw [← c5split]; simp [strDataAppend]]
  rw [injectScriptStep_head, shimFor_x]
  apply strEqOfData
  simp [strDataAppend]



/-! ### C6 support -/

theorem mem_of_isPrefixOf {p l : List Char} (h : List.isPrefixOf p l = true) {c : Char}
    (hc : c ∈ p) : c ∈ l := by
  have := List.isPrefixOf_iff_prefix.mp h
  exact this.subset hc

theorem isPrefixOf_append_self (p r : List Char) : List.isPrefixOf p (p ++ r) = true :=
  List.isPrefixOf_iff_prefix.mpr ⟨r, rfl⟩

theorem isPrefixOf_refl (p : List Char) : List.isPrefixOf p p = true := by
  simpa using isPrefixOf_append_self p []

theorem isPrefixOf_append_cancel (p q r : List Char) :
    List.isPrefixOf (p ++ q) (p ++ r) = List.isPrefixOf q r := by
  induction p with
  | nil => rfl
  | cons x xs ih => simp [List.isPrefixOf, ih]

theorem tryAttrName_none {name slug t : List Char} (h : '=' ∉ t) :
    tryAttrName name slug t = none := by
  unfold tryAttrName
  split
  · next hp => exact absurd (mem_of_isPrefixOf hp (by simp)) h
  · rfl

theorem tryAttrAlt_none {slug t : List Char} (h : '=' ∉ t) : tryAttrAlt slug t = none := by
  unfold tryAttrAlt
  rw [tryAttrName_none h, tryAttrName_none h, tryAttrName_none h]

theorem tryUrlParenHtml_none {slug t : List Char} (h : '(' ∉ t) :
    tryUrlParenHtml slug t = none := by
  unfold tryUrlParenHtml
  split
  · next hp => exact absurd (mem_of_isPrefixOf hp (by simp)) h
  · rfl

theorem tryCssUrl_none_of {slug t : List Char} {x : Char}
    (hx : x ∈ (['u', 'r', 'l', '('] : List Char)) (h : x ∉ t) : tryCssUrl slug t = none := by
  unfold tryCssUrl
  split
  · next hp => exact absurd (mem_of_isPrefixOf hp hx) h
  · rfl

theorem tryCssUrl_none {slug t : List Char} (h : '(' ∉ t) : tryCssUrl slug t = none :=
  tryCssUrl_none_of (by simp) h

theorem tryCssImport_none {slug t : List Char} (h : '@' ∉ t) : tryCssImport slug t = none := by
  unfold tryCssImport
  split
  · next hp => exact absurd (mem_of_isPrefixOf hp (by simp)) h
  · rfl

theorem tryImportCall_none {b : Bool} {slug t : List Char} (h : '(' ∉ t) :
    tryImportCall b slug t = none := by
  unfold tryImportCall
  split
  · next hp => exact absurd (mem_of_isPrefixOf hp (by simp)) h
  · rfl

theorem tryFetchCall_none {slug t : List Char} (h : '(' ∉ t) : tryFetchCall slug t = none := by
  unfold tryFetchCall
  split
  · next hp => exact absurd (mem_of_isPrefixOf hp (by simp)) h
  · rfl

theorem trySrcMap_none {slug t : List Char} (h : '#' ∉ t) : trySrcMap slug t = none := by
  unfold trySrcMap
  split
  · next hp => exact absurd (mem_of_isPrefixOf hp (by simp [srcMapPat])) h
  · rfl

theorem tryNewUrl_none {slug t : List Char} (h : '(' ∉ t) : tryNewUrl slug t = none := by
  unfold tryNewUrl
  split
  · next hp1 =>
    split
    · next hws =>
      split
      · next hp2 =>
        have hin : '(' ∈ (List.drop 3 t).dropWhile isWsChar :=
          mem_of_isPrefixOf hp2 (by simp)
        have : '(' ∈ t :=
          ((List.dropWhile_suffix _).trans (List.drop_suffix _ _)).mem hin
        exact absurd this h
      · rfl
    · rfl
  · rfl

theorem tryFromKw_none {slug t : List Char} (hq : '"' ∉ t) (ha : apos ∉ t) :
    tryFromKw slug t = none := by
  unfold tryFromKw
  split
  · next hp =>
    split
    · next q rest heq =>
      have hqin : q ∈ t := by
        have h1 : q ∈ (List.drop 4 t).dropWhile isWsChar := by rw [heq]; simp
        exact ((List.dropWhile_suffix _).trans (List.drop_suffix _ _)).mem h1
      have hqf : isQuoteDS q = false := by
        unfold isQuoteDS
        have h2 : q ≠ '"' := fun he => hq (he ▸ hqin)
        have h3 : q ≠ apos := fun he => ha (he ▸ hqin)
        simp [h2, h3]
      simp [hqf]
    · rfl
  · rfl

theorem tryImportSp_none {slug t : List Char} (h : ∀ c ∈ t, isWsChar c = false) :
    tryImportSp slug t = none := by
  unfold tryImportSp
  split
  · next hp =>
    have hws : ((List.drop 6 t).takeWhile isWsChar).length = 0 := by
      rcases htw : (List.drop 6 t).takeWhile isWsChar with _ | ⟨c, cs⟩
      · rfl
      · exfalso
        have hcw : isWsChar c = true := by
          have : c ∈ (List.drop 6 t).takeWhile isWsChar := by rw [htw]; simp
          exact List.mem_takeWhile_imp this
        have hcin : c ∈ t := by
          have h1 : c ∈ (List.drop 6 t).takeWhile isWsChar := by rw [htw]; simp
          have h2 : c ∈ List.drop 6 t := ((List.takeWhile_sublist _).subset) h1
          exact (List.drop_suffix _ _).mem h2
        rw [h c hcin] at hcw
        cases hcw
    simp [hws]
  · rfl

theorem scanWith_id_of_none {probe : List Char → Option (List Char × List Char)}
    {l : List Char} (h : ∀ t, t <:+ l → probe t = none) (fuel : Nat) :
    scanWith probe fuel l = l :=
  scanNoMatch fuel l h

theorem runScan_id {probe : List Char → Option (List Char × List Char)} {l : List Char}
    (h : ∀ t, t <:+ l → probe t = none) : runScan probe l = l :=
  scanNoMatch _ l h

theorem runScan_cons_match {probe : List Char → Option (List Char × List Char)}
    {c : Char} {cs rep rest : List Char} (h : probe (c :: cs) = some (rep, rest))
    (hid : ∀ fuel, scanWith probe fuel rest = rest) :
    runScan probe (c :: cs) = rep ++ rest := by
  unfold runScan
  rw [show (c :: cs).length = cs.length + 1 from rfl, scanWith_succ_cons, h]
  show rep ++ scanWith probe cs.length rest = rep ++ rest
  rw [hid]

theorem slugChar_toLower {c : Char} (h : slugCharOk c = true) : c.toLower = c := by
  unfold slugCharOk at h
  simp only [Bool.or_eq_true, Bool.and_eq_true, decide_eq_true_eq] at h
  unfold Char.toLower
  rcases h with (⟨h1, h2⟩ | ⟨h1, h2⟩) | h1
  · have g1 : (97 : Nat) ≤ c.toNat := h1
    simp only [ge_iff_le]
    rw [if_neg (by omega)]
  · have g2 : c.toNat ≤ (57 : Nat) := h2
    simp only [ge_iff_le]
    rw [if_neg (by omega)]
  · subst h1
    rfl


theorem slugOk_not_mem {s : List Char} (hs : slugOkL s = true) {x : Char}
    (hx : slugCharOk x = false) : x ∉ s := by
  intro hmem
  have := List.all_eq_true.mp hs x hmem
  rw [hx] at this
  cases this


theorem ciPrefix_cons (p c : Char) (ps cs : List Char) :
    ciPrefix (p :: ps) (c :: cs) = ((p.toLower == c.toLower) && ciPrefix ps cs) := rfl

theorem tryModuleBlock_none_of_head {slug : List Char} {c : Char} {cs : List Char}
    (h : ('<' == c.toLower) = false) : tryModuleBlock slug (c :: cs) = none := by
  unfold tryModuleBlock
  rw [ciPrefix_cons]
  rw [show ('<'.toLower == c.toLower) = ('<' == c.toLower) from rfl, h]
  rfl

theorem runScan_cons_none {probe : List Char → Option (List Char × List Char)}
    {c : Char} {cs : List Char} (h : probe (c :: cs) = none)
    (hid : ∀ fuel, scanWith probe fuel cs = cs) : runScan probe (c :: cs) = c :: cs := by
  unfold runScan
  rw [show (c :: cs).length = cs.length + 1 from rfl, scanWith_succ_cons, h]
  show c :: scanWith probe cs.length cs = c :: cs
  rw [hid]

theorem tryAttrName_skip (name s rest' : List Char) :
    tryAttrName name s ((name ++ ['=']) ++ '"' :: '/' :: 't' :: '/' :: (s ++ '/' :: rest')) =
      none := by
  unfold tryAttrName
  rw [if_pos (isPrefixOf_append_self _ _)]
  rw [show (name.length + 1) = (name ++ ['=']).length from by simp]
  rw [List.drop_left]
  have hla : lookaheadOk s ('t' :: '/' :: (s ++ '/' :: rest')) = false := by
    unfold lookaheadOk
    rw [show List.isPrefixOf ('t' :: '/' :: (s ++ ['/'])) ('t' :: '/' :: (s ++ '/' :: rest')) =
        true from by
      simp only [List.isPrefixOf, Bool.and_eq_true, beq_self_eq_true, true_and]
      rw [show ('/' :: rest') = ['/'] ++ rest' from rfl, ← List.append_assoc]
      exact isPrefixOf_append_self _ _]
    simp
  simp [hla]



theorem slugChar_not_ws {c : Char} (h : slugCharOk c = true) : isWsChar c = false := by
  rcases hws : isWsChar c with _ | _
  · rfl
  · exfalso
    unfold isWsChar at hws
    simp only [Bool.or_eq_true, decide_eq_true_eq] at hws
    rcases hws with ((((h1 | h1) | h1) | h1) | h1) | h1 <;> (subst h1; simp [slugCharOk] at h)

theorem c6CssUrlDouble (s : List Char) (hs : slugOkL s = true) :
    rewriteCssL s (['u', 'r', 'l', '(', '/', 't', '/'] ++ (s ++ ['/', 'a', '.', 'p', 'n', 'g', ')'])) =
      ['u', 'r', 'l', '(', '/', 't', '/'] ++ (s ++ (['/', 't', '/'] ++ (s ++ ['/', 'a', '.', 'p', 'n', 'g', ')']))) := by
  have hparen : '(' ∉ ('t' :: '/' :: (s ++ ['/', 'a', '.', 'p', 'n', 'g', ')'])) := by
    intro hm
    rcases List.mem_cons.mp hm with h | h
    · exact absurd h (by decide)
    rcases List.mem_cons.mp h with h | h
    · exact absurd h (by decide)
    rcases List.mem_append.mp h with h | h
    · exact slugOk_not_mem hs (by decide) h
    · exact absurd h (by decide)
  have hfire : tryCssUrl s ('u' :: 'r' :: 'l' :: '(' :: '/' :: 't' :: '/' :: (s ++ ['/', 'a', '.', 'p', 'n', 'g', ')'])) =
      some (['u', 'r', 'l', '('] ++ tpath s, 't' :: '/' :: (s ++ ['/', 'a', '.', 'p', 'n', 'g', ')'])) := rfl
  have he1 : runScan (tryCssUrl s)
      (['u', 'r', 'l', '(', '/', 't', '/'] ++ (s ++ ['/', 'a', '.', 'p', 'n', 'g', ')'])) =
      (['u', 'r', 'l', '('] ++ tpath s) ++ ('t' :: '/' :: (s ++ ['/', 'a', '.', 'p', 'n', 'g', ')'])) :=
    runScan_cons_match hfire
      (fun fuel => scanWith_id_of_none
        (fun t ht => tryCssUrl_none (fun hm => hparen (List.IsSuffix.mem hm ht))) fuel)
  have hat : '@' ∉ ((['u', 'r', 'l', '('] ++ tpath s) ++ ('t' :: '/' :: (s ++ ['/', 'a', '.', 'p', 'n', 'g', ')']))) := by
    intro hm
    rcases List.mem_append.mp hm with h | h
    · rcases List.mem_append.mp h with h | h
      · exact absurd h (by decide)
      · unfold tpath tbase at h
        rcases List.mem_append.mp h with h | h
        · rcases List.mem_cons.mp h with h | h
          · exact absurd h (by decide)
          rcases List.mem_cons.mp h with h | h
          · exact absurd h (by decide)
          rcases List.mem_cons.mp h with h | h
          · exact absurd h (by decide)
          · exact slugOk_not_mem hs (by decide) h
        · exact absurd h (by decide)
    · rcases List.mem_cons.mp h with h | h
      · exact absurd h (by decide)
      rcases List.mem_cons.mp h with h | h
      · exact absurd h (by decide)
      rcases List.mem_append.mp h with h | h
      · exact slugOk_not_mem hs (by decide) h
      · exact absurd h (by decide)
  unfold rewriteCssL
  rw [he1, runScan_id (fun t ht => tryCssImport_none (fun hm => hat (List.IsSuffix.mem hm ht)))]
  simp [tpath, tbase]

theorem c6CssProtocolRel (s : List Char) :
    rewriteCssL s ("url(//cdn.example/x.js)".data) = "url(//cdn.example/x.js)".data := by
  have hnm : tryCssUrl s ("url(//cdn.example/x.js)".data) = none := rfl
  have hu : 'u' ∉ ("rl(//cdn.example/x.js)".data : List Char) := by decide
  have he1 : runScan (tryCssUrl s) ("url(//cdn.example/x.js)".data) =
      "url(//cdn.example/x.js)".data := by
    have : runScan (tryCssUrl s) ('u' :: "rl(//cdn.example/x.js)".data) =
        'u' :: "rl(//cdn.example/x.js)".data :=
      runScan_cons_none hnm
        (fun fuel => scanWith_id_of_none
          (fun t ht => tryCssUrl_none_of (by simp) (fun hm => hu (List.IsSuffix.mem hm ht))) fuel)
    exact this
  have hat : '@' ∉ ("url(//cdn.example/x.js)".data : List Char) := by decide
  unfold rewriteCssL
  rw [he1, runScan_id (fun t ht => tryCssImport_none (fun hm => hat (List.IsSuffix.mem hm ht)))]

theorem c6CssImportDouble (s : List Char) (hs : slugOkL s = true) :
    rewriteCssL s (['@', 'i', 'm', 'p', 'o', 'r', 't', ' ', '"', '/', 't', '/'] ++ (s ++ ['/'])) =
      ['@', 'i', 'm', 'p', 'o', 'r', 't', ' ', '"', '/', 't', '/'] ++ (s ++ (['/', 't', '/'] ++ (s ++ ['/']))) := by
  have hparen : '(' ∉ (['@', 'i', 'm', 'p', 'o', 'r', 't', ' ', '"', '/', 't', '/'] ++ (s ++ ['/'])) := by
    intro hm
    rcases List.mem_append.mp hm with h | h
    · exact absurd h (by decide)
    rcases List.mem_append.mp h with h | h
    · exact slugOk_not_mem hs (by decide) h
    · exact absurd h (by decide)
  have he1 : runScan (tryCssUrl s)
      (['@', 'i', 'm', 'p', 'o', 'r', 't', ' ', '"', '/', 't', '/'] ++ (s ++ ['/'])) =
      ['@', 'i', 'm', 'p', 'o', 'r', 't', ' ', '"', '/', 't', '/'] ++ (s ++ ['/']) :=
    runScan_id (fun t ht => tryCssUrl_none (fun hm => hparen (List.IsSuffix.mem hm ht)))
  have hfire : tryCssImport s
      ('@' :: 'i' :: 'm' :: 'p' :: 'o' :: 'r' :: 't' :: ' ' :: '"' :: '/' :: 't' :: '/' :: (s ++ ['/'])) =
      some (['@', 'i', 'm', 'p', 'o', 'r', 't', ' ', '"'] ++ tpath s, 't' :: '/' :: (s ++ ['/'])) := rfl
  have hat : '@' ∉ ('t' :: '/' :: (s ++ ['/'])) := by
    intro hm
    rcases List.mem_cons.mp hm with h | h
    · exact absurd h (by decide)
    rcases List.mem_cons.mp h with h | h
    · exact absurd h (by decide)
    rcases List.mem_append.mp h with h | h
    · exact slugOk_not_mem hs (by decide) h
    · exact absurd h (by decide)
  unfold rewriteCssL
  rw [he1]
  have he2 : runScan (tryCssImport s)
      (['@', 'i', 'm', 'p', 'o', 'r', 't', ' ', '"', '/', 't', '/'] ++ (s ++ ['/'])) =
      (['@', 'i', 'm', 'p', 'o', 'r', 't', ' ', '"'] ++ tpath s) ++ ('t' :: '/' :: (s ++ ['/'])) :=
    runScan_cons_match hfire
      (fun fuel => scanWith_id_of_none
        (fun t ht => tryCssImport_none (fun hm => hat (List.IsSuffix.mem hm ht))) fuel)
  rw [he2]
  simp [tpath, tbase]


theorem c6HtmlSkip (s : List Char) (hs : slugOkL s = true) :
    htmlUrlPasses s (['s', 'r', 'c', '=', '"', '/', 't', '/'] ++ (s ++ ['/'])) =
      ['s', 'r', 'c', '=', '"', '/', 't', '/'] ++ (s ++ ['/']) := by
  have hEqA : '=' ∉ s ++ ['/'] := by
    intro hm
    rcases List.mem_append.mp hm with h | h
    · exact slugOk_not_mem hs (by decide) h
    · exact absurd h (by decide)
  have hParen : '(' ∉ (['s', 'r', 'c', '=', '"', '/', 't', '/'] ++ (s ++ ['/'])) := by
    intro hm
    rcases List.mem_append.mp hm with h | h
    · exact absurd h (by decide)
    rcases List.mem_append.mp h with h | h
    · exact slugOk_not_mem hs (by decide) h
    · exact absurd h (by decide)
  have passMod : ∀ t, t <:+ (s ++ ['/']) → tryModuleBlock s t = none := by
    intro t ht
    cases t with
    | nil => rfl
    | cons c cs =>
      have hc : c ∈ s ++ ['/'] := List.IsSuffix.mem (by simp) ht
      apply tryModuleBlock_none_of_head
      rcases List.mem_append.mp hc with h | h
      · rw [slugChar_toLower (List.all_eq_true.mp hs c h)]
        have h2 : c ≠ '<' := fun he => slugOk_not_mem hs (by decide) (he ▸ h)
        exact beq_eq_false_iff_ne.mpr (fun he => h2 he.symm)
      · have : c = '/' := by simpa using h
        subst this
        rfl
  have pass1 : ∀ t, t <:+ (['s', 'r', 'c', '=', '"', '/', 't', '/'] ++ (s ++ ['/'])) →
      tryAttrAlt s t = none := by
    intro t ht
    rcases suffix_append_split ht with hA | ⟨p', hp', rfl⟩
    · exact tryAttrAlt_none (fun hm => hEqA (List.IsSuffix.mem hm hA))
    · have hmem := (List.mem_tails _ _).mpr hp'
      simp only [List.tails, List.mem_cons, List.not_mem_nil, or_false] at hmem
      rcases hmem with rfl | rfl | rfl | rfl | rfl | rfl | rfl | rfl | rfl
      · show tryAttrAlt s (['s', 'r', 'c', '=', '"', '/', 't', '/'] ++ (s ++ ['/'])) = none
        unfold tryAttrAlt
        rw [show tryAttrName ['s', 'r', 'c'] s
            (['s', 'r', 'c', '=', '"', '/', 't', '/'] ++ (s ++ ['/'])) = none from
          tryAttrName_skip ['s', 'r', 'c'] s []]
        rfl
      · rfl
      · rfl
      · rfl
      · rfl
      · rfl
      · rfl
      · rfl
      · exact tryAttrAlt_none hEqA
  have pass2 : ∀ t, t <:+ (['s', 'r', 'c', '=', '"', '/', 't', '/'] ++ (s ++ ['/'])) →
      tryAttrName ['s', 'r', 'c', 's', 'e', 't'] s t = none := by
    intro t ht
    rcases suffix_append_split ht with hA | ⟨p', hp', rfl⟩
    · exact tryAttrName_none (fun hm => hEqA (List.IsSuffix.mem hm hA))
    · have hmem := (List.mem_tails _ _).mpr hp'
      simp only [List.tails, List.mem_cons, List.not_mem_nil, or_false] at hmem
      rcases hmem with rfl | rfl | rfl | rfl | rfl | rfl | rfl | rfl | rfl
      · rfl
      · rfl
      · rfl
      · rfl
      · rfl
      · rfl
      · rfl
      · rfl
      · exact tryAttrName_none hEqA
  have pass3 : ∀ t, t <:+ (['s', 'r', 'c', '=', '"', '/', 't', '/'] ++ (s ++ ['/'])) →
      tryAttrName ['d', 'a', 't', 'a', '-', 's', 'r', 'c'] s t = none := by
    intro t ht
    rcases suffix_append_split ht with hA | ⟨p', hp', rfl⟩
    · exact tryAttrName_none (fun hm => hEqA (List.IsSuffix.mem hm hA))
    · have hmem := (List.mem_tails _ _).mpr hp'
      simp only [List.tails, List.mem_cons, List.not_mem_nil, or_false] at hmem
      rcases hmem with rfl | rfl | rfl | rfl | rfl | rfl | rfl | rfl | rfl
      · rfl
      · rfl
      · rfl
      · rfl
      · rfl
      · rfl
      · rfl
      · rfl
      · exact tryAttrName_none hEqA
  have pass5 : ∀ t, t <:+ (['s', 'r', 'c', '=', '"', '/', 't', '/'] ++ (s ++ ['/'])) →
      tryAttrName ['c', 'o', 'n', 't', 'e', 'n', 't'] s t = none := by
    intro t ht
    rcases suffix_append_split ht with hA | ⟨p', hp', rfl⟩
    · exact tryAttrName_none (fun hm => hEqA (List.IsSuffix.mem hm hA))
    · have hmem := (List.mem_tails _ _).mpr hp'
      simp only [List.tails, List.mem_cons, List.not_mem_nil, or_false] at hmem
      rcases hmem with rfl | rfl | rfl | rfl | rfl | rfl | rfl | rfl | rfl
      · rfl
      · rfl
      · rfl
      · rfl
      · rfl
      · rfl
      · rfl
      · rfl
      · exact tryAttrName_none hEqA
  have pass4 : ∀ t, t <:+ (['s', 'r', 'c', '=', '"', '/', 't', '/'] ++ (s ++ ['/'])) →
      tryUrlParenHtml s t = none :=
    fun t ht => tryUrlParenHtml_none (fun hm => hParen (List.IsSuffix.mem hm ht))
  have pass6 : ∀ t, t <:+ (['s', 'r', 'c', '=', '"', '/', 't', '/'] ++ (s ++ ['/'])) →
      tryModuleBlock s t = none := by
    intro t ht
    rcases suffix_append_split ht with hA | ⟨p', hp', rfl⟩
    · exact passMod t hA
    · have hmem := (List.mem_tails _ _).mpr hp'
      simp only [List.tails, List.mem_cons, List.not_mem_nil, or_false] at hmem
      rcases hmem with rfl | rfl | rfl | rfl | rfl | rfl | rfl | rfl | rfl
      · exact tryModuleBlock_none_of_head (by decide)
      · exact tryModuleBlock_none_of_head (by decide)
      · exact tryModuleBlock_none_of_head (by decide)
      · exact tryModuleBlock_none_of_head (by decide)
      · exact tryModuleBlock_none_of_head (by decide)
      · exact tryModuleBlock_none_of_head (by decide)
      · exact tryModuleBlock_none_of_head (by decide)
      · exact tryModuleBlock_none_of_head (by decide)
      · exact passMod _ (List.suffix_refl _)
  unfold htmlUrlPasses
  rw [runScan_id pass1, runScan_id pass2, runScan_id pass3, runScan_id pass4,
      runScan_id pass5, runScan_id pass6]


theorem tryFromKw_skip (s : List Char) :
    tryFromKw s ('f' :: 'r' :: 'o' :: 'm' :: ' ' :: '"' :: '/' :: 't' :: '/' :: (s ++ ['/'])) =
      none := by
  have hla : lookaheadOk s ('t' :: '/' :: (s ++ ['/'])) = false := by
    unfold lookaheadOk
    rw [isPrefixOf_refl]
    simp
  unfold tryFromKw
  rw [if_pos (show List.isPrefixOf ['f', 'r', 'o', 'm']
      ('f' :: 'r' :: 'o' :: 'm' :: ' ' :: '"' :: '/' :: 't' :: '/' :: (s ++ ['/'])) = true
    from rfl)]
  rw [show (List.drop 4
      ('f' :: 'r' :: 'o' :: 'm' :: ' ' :: '"' :: '/' :: 't' :: '/' :: (s ++ ['/']))).dropWhile
        isWsChar = '"' :: '/' :: 't' :: '/' :: (s ++ ['/']) from rfl]
  simp [hla]

theorem c6JsSkip (s : List Char) (hs : slugOkL s = true) :
    rewriteJsBaseL s (['f', 'r', 'o', 'm', ' ', '"', '/', 't', '/'] ++ (s ++ ['/'])) =
      ['f', 'r', 'o', 'm', ' ', '"', '/', 't', '/'] ++ (s ++ ['/']) := by
  have hQA : '"' ∉ s ++ ['/'] := by
    intro hm
    rcases List.mem_append.mp hm with h | h
    · exact slugOk_not_mem hs (by decide) h
    · exact absurd h (by decide)
  have hAA : apos ∉ s ++ ['/'] := by
    intro hm
    rcases List.mem_append.mp hm with h | h
    · exact slugOk_not_mem hs (by decide) h
    · exact absurd h (by decide)
  have hWsA : ∀ c ∈ s ++ ['/'], isWsChar c = false := by
    intro c hm
    rcases List.mem_append.mp hm with h | h
    · exact slugChar_not_ws (List.all_eq_true.mp hs c h)
    · have : c = '/' := by simpa using h
      subst this
      rfl
  have hParen : '(' ∉ (['f', 'r', 'o', 'm', ' ', '"', '/', 't', '/'] ++ (s ++ ['/'])) := by
    intro hm
    rcases List.mem_append.mp hm with h | h
    · exact absurd h (by decide)
    rcases List.mem_append.mp h with h | h
    · exact slugOk_not_mem hs (by decide) h
    · exact absurd h (by decide)
  have hHash : '#' ∉ (['f', 'r', 'o', 'm', ' ', '"', '/', 't', '/'] ++ (s ++ ['/'])) := by
    intro hm
    rcases List.mem_append.mp hm with h | h
    · exact absurd h (by decide)
    rcases List.mem_append.mp h with h | h
    · exact slugOk_not_mem hs (by decide) h
    · exact absurd h (by decide)
  have pass1 : ∀ t, t <:+ (['f', 'r', 'o', 'm', ' ', '"', '/', 't', '/'] ++ (s ++ ['/'])) →
      tryFromKw s t = none := by
    intro t ht
    rcases suffix_append_split ht with hA | ⟨p', hp', rfl⟩
    · exact tryFromKw_none (fun hm => hQA (List.IsSuffix.mem hm hA))
        (fun hm => hAA (List.IsSuffix.mem hm hA))
    · have hmem := (List.mem_tails _ _).mpr hp'
      simp only [List.tails, List.mem_cons, List.not_mem_nil, or_false] at hmem
      rcases hmem with rfl | rfl | rfl | rfl | rfl | rfl | rfl | rfl | rfl | rfl
      · exact tryFromKw_skip s
      · rfl
      · rfl
      · rfl
      · rfl
      · rfl
      · rfl
      · rfl
      · rfl
      · exact tryFromKw_none hQA hAA
  have pass2 : ∀ t, t <:+ (['f', 'r', 'o', 'm', ' ', '"', '/', 't', '/'] ++ (s ++ ['/'])) →
      tryImportSp s t = none := by
    intro t ht
    rcases suffix_append_split ht with hA | ⟨p', hp', rfl⟩
    · exact tryImportSp_none (fun c hm => hWsA c (List.IsSuffix.mem hm hA))
    · have hmem := (List.mem_tails _ _).mpr hp'
      simp only [List.tails, List.mem_cons, List.not_mem_nil, or_false] at hmem
      rcases hmem with rfl | rfl | rfl | rfl | rfl | rfl | rfl | rfl | rfl | rfl
      · rfl
      · rfl
      · rfl
      · rfl
      · rfl
      · rfl
      · rfl
      · rfl
      · rfl
      · exact tryImportSp_none hWsA
  unfold rewriteJsBaseL
  rw [runScan_id pass1, runScan_id pass2,
      runScan_id (fun t ht => tryImportCall_none (fun hm => hParen (List.IsSuffix.mem hm ht))),
      runScan_id (fun t ht => tryFetchCall_none (fun hm => hParen (List.IsSuffix.mem hm ht))),
      runScan_id (fun t ht => tryNewUrl_none (fun hm => hParen (List.IsSuffix.mem hm ht))),
      runScan_id (fun t ht => trySrcMap_none (fun hm => hHash (List.IsSuffix.mem hm ht)))]



/-! ### Slug-loop exhaustion (claim C1) -/

theorem slugLoop_exhaust (hasSlug : String → Bool) (gen : Nat → String)
    (hall : ∀ i, i < 100 → hasSlug (gen i) = true) :
    ∀ (k i fuel : Nat), i + k = 99 → k < fuel → slugLoop hasSlug gen fuel i = gen 99
  | 0, i, fuel + 1, hik, _ => by
    have hi : i = 99 := by omega
    subst hi
    unfold slugLoop
    simp
  | k + 1, i, fuel + 1, hik, hkf => by
    have h1 : hasSlug (gen i) = true := hall i (by omega)
    have h2 : i + 1 < 100 := by omega
    have hstep : slugLoop hasSlug gen (fuel + 1) i = slugLoop hasSlug gen fuel (i + 1) := by
      show (if hasSlug (gen i) && decide (i + 1 < 100) then slugLoop hasSlug gen fuel (i + 1)
            else gen i) = slugLoop hasSlug gen fuel (i + 1)
      rw [h1]
      simp [h2]
    rw [hstep]
    exact slugLoop_exhaust hasSlug gen hall k (i + 1) fuel (by omega) (by omega)

theorem getUniqueSlug_exhaust (requested : Option String)
    (slugIndex : List (String × String)) (gen : Nat → String)
    (hreq : requestedUnusable requested slugIndex)
    (hall : ∀ i, i < 100 → mapHas (gen i) slugIndex = true) :
    getUniqueSlug requested slugIndex gen = gen 99 := by
  have hloop : slugLoop (fun s => mapHas s slugIndex) gen 100 0 = gen 99 :=
    slugLoop_exhaust _ gen hall 99 0 100 (by omega) (by omega)
  cases requested with
  | none => simpa [getUniqueSlug] using hloop
  | some r =>
    by_cases hr : r = ""
    · simp [getUniqueSlug, hr, hloop]
    · unfold requestedUnusable at hreq
      rcases hreq with h1 | h2 | h3
      · exact absurd h1 hr
      · simp [getUniqueSlug, hr, h2, hloop]
      · simp [getUniqueSlug, hr, h3, hloop]


theorem c1_amendedAux (cfg : Config) (st : RelayState) (tid : String) (port : Nat)
    (requested : Option String) (gen : Nat → String) (host : Option String)
    (lanIp : String) (now : Nat)
    (hcap : st.tunnels.length < cfg.maxTunnels)
    (hreq : requestedUnusable requested st.slugToTunnel)
    (hall : ∀ i, i < 100 → mapHas (gen i) st.slugToTunnel = true) :
    handshakeConn cfg st tid port requested gen host lanIp now =
      (.connected tid (gen 99) (getBaseUrl cfg host lanIp ++ "/t/" ++ gen 99),
       { tunnels := mapSet tid
           { tunnelId := tid, slug := gen 99, localPort := port, connectedAt := now,
             requestCount := 0, pendingRequests := [] } st.tunnels,
         slugToTunnel := mapSet (gen 99) tid st.slugToTunnel }) ∧
    mapGet (gen 99) (mapSet (gen 99) tid st.slugToTunnel) = some tid := by
  have hsl := getUniqueSlug_exhaust requested st.slugToTunnel gen hreq hall
  refine ⟨?_, mapGet_mapSet_self _ _ _⟩
  unfold handshakeConn
  rw [if_neg (by omega : ¬ st.tunnels.length ≥ cfg.maxTunnels)]
  rw [hsl]


theorem reachable_size_le {cfg : Config} {st : RelayState} (h : Reachable cfg st) :
    st.tunnels.length ≤ cfg.maxTunnels := by
  induction h with
  | init => simp
  | handshake tid port req gen host lan now hst ih =>
    rename_i st'
    by_cases hc : st'.tunnels.length ≥ cfg.maxTunnels
    · unfold handshakeConn
      rw [if_pos hc]
      exact ih
    · unfold handshakeConn
      rw [if_neg hc]
      have h1 := length_mapSet_le tid
        { tunnelId := tid, slug := getUniqueSlug req st'.slugToTunnel gen,
          localPort := port, connectedAt := now, requestCount := 0,
          pendingRequests := [] } st'.tunnels
      simp only []
      omega
  | close hst hget ih =>
    exact le_trans (length_mapDelete_le _ _) ih
  | forward rid m p hd b now hst hget ih =>
    unfold stateWithConn
    simpa [length_mapSet_of_mapGet _ _ _ _ hget] using ih
  | response m hst hget ih =>
    unfold stateWithConn
    simpa [length_mapSet_of_mapGet _ _ _ _ hget] using ih
  | timeoutFire rid hst hget ih =>
    unfold stateWithConn
    simpa [length_mapSet_of_mapGet _ _ _ _ hget] using ih


/-! ### Claim theorems -/

/-- Claim C1 (counterexample to the claim as stated): with one live tunnel on
slug `a`, a requested slug that sanitises to the taken `a`, and every random
draw colliding (`gen ≡ "a"`), the 100-attempt loop exhausts and the handshake
is NOT rejected: it answers `connected` with the colliding slug `a`, registers
a second tunnel, and overwrites the slug-index entry for `a` with the new
tunnel id. -/
theorem c1_counterexample :
    (handshakeConn cfgCap2 stA "t1" 3000 (some "a") (fun _ => "a") none "127.0.0.1" 0).1 =
      .connected "t1" "a" "http://127.0.0.1:8080/t/a" ∧
    ((handshakeConn cfgCap2 stA "t1" 3000 (some "a") (fun _ => "a") none
        "127.0.0.1" 0).2).tunnels.length = 2 ∧
    mapGet "a" ((handshakeConn cfgCap2 stA "t1" 3000 (some "a") (fun _ => "a") none
        "127.0.0.1" 0).2).slugToTunnel = some "t1" := by
  refine ⟨?_, ?_, ?_⟩ <;> decide

/-- Claim C1 (amended): when the requested slug is unusable and all 100 random
draws collide with live slugs, the handshake is NOT rejected: the server
proceeds with the 100th draw `gen 99`, sends `connected`, registers the tunnel,
and overwrites the slug-index entry for that slug with the new tunnel id. -/
theorem c1_amended (cfg : Config) (st : RelayState) (tid : String) (port : Nat)
    (requested : Option String) (gen : Nat → String) (host : Option String)
    (lanIp : String) (now : Nat)
    (hcap : st.tunnels.length < cfg.maxTunnels)
    (hreq : requestedUnusable requested st.slugToTunnel)
    (hall : ∀ i, i < 100 → mapHas (gen i) st.slugToTunnel = true) :
    handshakeConn cfg st tid port requested gen host lanIp now =
      (.connected tid (gen 99) (getBaseUrl cfg host lanIp ++ "/t/" ++ gen 99),
       { tunnels := mapSet tid
           { tunnelId := tid, slug := gen 99, localPort := port, connectedAt := now,
             requestCount := 0, pendingRequests := [] } st.tunnels,
         slugToTunnel := mapSet (gen 99) tid st.slugToTunnel }) ∧
    mapGet (gen 99) (mapSet (gen 99) tid st.slugToTunnel) = some tid :=
  c1_amendedAux cfg st tid port requested gen host lanIp now hcap hreq hall

/-- Witness for C1: instantiating the amended theorem at the concrete
collision scenario shows the slug-index entry for `a` now maps to `t1`. -/
theorem c1_witness :
    mapGet "a" (mapSet "a" "t1" stA.slugToTunnel) = some "t1" :=
  (c1_amended cfgCap2 stA "t1" 3000 (some "a") (fun _ => "a") none "127.0.0.1" 0
    (by decide) (Or.inr (Or.inr (by decide)))
    (fun i _ => by show mapHas "a" stA.slugToTunnel = true; decide)).2

/-- Claim C2 (confirmed): in every reachable relay state the number of live
tunnels is at most `max_tunnels`, and a handshake arriving when the count
equals `max_tunnels` is answered by the capacity `error` frame followed by
close, with the state (registry and slug index) unchanged. -/
theorem c2_capacity (cfg : Config) (st : RelayState) (h : Reachable cfg st) :
    st.tunnels.length ≤ cfg.maxTunnels ∧
    (st.tunnels.length = cfg.maxTunnels →
      ∀ (tid : String) (port : Nat) (requested : Option String) (gen : Nat → String)
        (host : Option String) (lanIp : String) (now : Nat),
        handshakeConn cfg st tid port requested gen host lanIp now =
          (.rejected "Server at capacity. Please try again later." true, st)) := by
  refine ⟨reachable_size_le h, fun heq tid port requested gen host lanIp now => ?_⟩
  unfold handshakeConn
  rw [if_pos (by omega : st.tunnels.length ≥ cfg.maxTunnels)]

/-- Witness for C2: with `MAX_TUNNELS=0` the empty start state is already at
capacity and the handshake is rejected with the exact error message. -/
theorem c2_witness :
    handshakeConn cfgCap0 ⟨[], []⟩ "t1" 3000 none (fun _ => "a") none "ip" 0 =
      (.rejected "Server at capacity. Please try again later." true, ⟨[], []⟩) :=
  (c2_capacity cfgCap0 ⟨[], []⟩ Reachable.init).2 rfl "t1" 3000 none (fun _ => "a") none "ip" 0

/-- Claim C3 (confirmed): when the deadline fires for a forwarded request, the
visitor reply is status 502 with exactly the documented body, the pending
record is removed (before the reply is written: `requestTimeoutFire` deletes
and only then rejects), and a later `response` frame carrying the same
`requestId` is dropped with no state change. -/
theorem c3_timeout (conn : TunnelConnection) (requestId method path : String)
    (headers : List (String × String)) (bodyB64 : String) (now : Nat)
    (sc : Option Nat) (hd : Option (List (String × String))) (bd : Option String) :
    visitorCatchReply
        (requestTimeoutFire (forwardStart conn requestId method path headers bodyB64 now).1
          requestId).2 =
      (502, "Failed to reach local server. Make sure your dev server is running.") ∧
    mapGet requestId
        ((requestTimeoutFire (forwardStart conn requestId method path headers bodyB64 now).1
          requestId).1).pendingRequests = none ∧
    handleTunnelResponse
        (requestTimeoutFire (forwardStart conn requestId method path headers bodyB64 now).1
          requestId).1 ⟨requestId, sc, hd, bd⟩ =
      ((requestTimeoutFire (forwardStart conn requestId method path headers bodyB64 now).1
          requestId).1, none) := by
  refine ⟨rfl, mapGet_mapDelete_self _ _, ?_⟩
  unfold handleTunnelResponse requestTimeoutFire
  simp [mapGet_mapDelete_self]

/-- Claim C4 (counterexample to the claim as stated): tearing down a tunnel
with one pending request leaves the connection object's pending map
NON-empty — the close handler rejects every pending promise but never clears
the map, so "at the moment of teardown the pending map is empty" is false. -/
theorem c4_counterexample :
    (wsCloseHandler stPend connPend).finalConn.pendingRequests ≠ [] ∧
    (wsCloseHandler stPend connPend).rejections = [("r1", "Tunnel disconnected")] := by
  refine ⟨?_, ?_⟩ <;> decide

/-- Claim C4 (amended): on control-channel close every pending record is
failed with `Tunnel disconnected`, the slug is removed from the lookup, the
tunnel is removed from the registry, and the keepalive timer is cancelled;
the tunnel's pending map is NOT cleared — it still holds all its (already
rejected) records at the moment of teardown. -/
theorem c4_amended (st : RelayState) (conn : TunnelConnection) :
    (wsCloseHandler st conn).rejections =
      conn.pendingRequests.map (fun p => (p.1, "Tunnel disconnected")) ∧
    mapGet conn.tunnelId (wsCloseHandler st conn).state.tunnels = none ∧
    mapGet conn.slug (wsCloseHandler st conn).state.slugToTunnel = none ∧
    (wsCloseHandler st conn).keepaliveCleared = true ∧
    (wsCloseHandler st conn).finalConn.pendingRequests = conn.pendingRequests :=
  ⟨rfl, mapGet_mapDelete_self _ _, mapGet_mapDelete_self _ _, rfl, rfl⟩


set_option maxRecDepth 10000 in
/-- Claim C5 (counterexample to the claim as stated): rewriting
`<head></head>` with slug `x` twice does not yield the same bytes as
rewriting it once — the second application injects a second copy of the
runtime shim. -/
theorem c5_counterexample :
    rewriteHtml "x" (rewriteHtml "x" "<head></head>") ≠ rewriteHtml "x" "<head></head>" := by
  rw [c5TwiceEq, c5OnceEq]
  intro h
  have hlen := congrArg (fun s => s.data.length) h
  simp only [strDataAppend, List.length_append] at hlen
  have hA : (urlRewriteScript "/t/x").data.length =
      shimA.data.length + ("/t/x" : String).data.length +
        (shimB1.data.length + shimB2.data.length) := by
    simp [urlRewriteScript, shimB, strDataAppend]
    omega
  have h173 : shimA.data.length = 173 := by decide
  omega

/-- Claim C5 (amended): the HTML rewrite is NOT idempotent, because the shim
is injected unconditionally on every application (its global flag guards only
runtime execution).  On already-rewritten HTML the URL-rewriting passes make
no further change, but a second shim copy is inserted right after `<head>`:
one application of the rewrite to `<head></head>` with slug `x` yields
`<head>` ++ shim ++ `</head>`, and a second application yields
`<head>` ++ shim ++ shim ++ `</head>`. -/
theorem c5_amended :
    rewriteHtml "x" "<head></head>" = "<head>" ++ urlRewriteScript "/t/x" ++ "</head>" ∧
    rewriteHtml "x" (rewriteHtml "x" "<head></head>") =
      "<head>" ++ urlRewriteScript "/t/x" ++ urlRewriteScript "/t/x" ++ "</head>" :=
  ⟨c5OnceEq, c5TwiceEq⟩

/-- Claim C6 (counterexample to the claim as stated): a CSS `url(...)` URL
already prefixed with `/t/x/` is rewritten AGAIN by the CSS pass, receiving a
double prefix — it is not left unchanged. -/
theorem c6_counterexample :
    rewriteCss "x" "url(/t/x/a.png)" ≠ "url(/t/x/a.png)" := by decide

/-- Claim C6 (amended): in the HTML-attribute, inline-module and JavaScript
passes a URL occurrence is rewritten only if it starts with exactly one `/`
and is not already prefixed with `/t/<slug>/`; the CSS passes check only that
the URL does not start with `//`, so CSS `url(...)` and `@import` URLs that
already start with `/t/<slug>/` are rewritten again (double-prefixed), while
protocol-relative `//` URLs stay untouched and already-prefixed HTML
attributes and JS `from` specifiers are skipped. -/
theorem c6_amended (s : List Char) (hs : slugOkL s = true) :
    rewriteCssL s
        (['u', 'r', 'l', '(', '/', 't', '/'] ++ (s ++ ['/', 'a', '.', 'p', 'n', 'g', ')'])) =
      ['u', 'r', 'l', '(', '/', 't', '/'] ++
        (s ++ (['/', 't', '/'] ++ (s ++ ['/', 'a', '.', 'p', 'n', 'g', ')']))) ∧
    rewriteCssL s ("url(//cdn.example/x.js)".data) = "url(//cdn.example/x.js)".data ∧
    rewriteCssL s (['@', 'i', 'm', 'p', 'o', 'r', 't', ' ', '"', '/', 't', '/'] ++ (s ++ ['/'])) =
      ['@', 'i', 'm', 'p', 'o', 'r', 't', ' ', '"', '/', 't', '/'] ++
        (s ++ (['/', 't', '/'] ++ (s ++ ['/']))) ∧
    htmlUrlPasses s (['s', 'r', 'c', '=', '"', '/', 't', '/'] ++ (s ++ ['/'])) =
      ['s', 'r', 'c', '=', '"', '/', 't', '/'] ++ (s ++ ['/']) ∧
    rewriteJsBaseL s (['f', 'r', 'o', 'm', ' ', '"', '/', 't', '/'] ++ (s ++ ['/'])) =
      ['f', 'r', 'o', 'm', ' ', '"', '/', 't', '/'] ++ (s ++ ['/']) :=
  ⟨c6CssUrlDouble s hs, c6CssProtocolRel s, c6CssImportDouble s hs, c6HtmlSkip s hs,
   c6JsSkip s hs⟩

/-- Witness for C6: at the concrete slug `my-app` the CSS pass double-prefixes
an already-prefixed URL. -/
theorem c6_witness :
    slugOkL ("my-app".data) = true ∧
    rewriteCssL ("my-app".data)
        (['u', 'r', 'l', '(', '/', 't', '/'] ++
          ("my-app".data ++ ['/', 'a', '.', 'p', 'n', 'g', ')'])) =
      ['u', 'r', 'l', '(', '/', 't', '/'] ++
        ("my-app".data ++ (['/', 't', '/'] ++ ("my-app".data ++ ['/', 'a', '.', 'p', 'n', 'g', ')']))) :=
  ⟨by decide, (c6_amended ("my-app".data) (by decide)).1⟩


/-- Claim C7 (counterexample to the claim as stated): a frame header
`transfer-encoding: chunked` SURVIVES into the outbound request the client
issues to the local server — `proxyRequest` deletes only `host`,
`connection` and `keep-alive`. -/
theorem c7_counterexample :
    mapGet "transfer-encoding"
        (clientOutboundHeaders [("transfer-encoding", "chunked"), ("host", "h")]) =
      some "chunked" := by decide

/-- Claim C7 (amended): the client strips `host`, `connection` and
`keep-alive` (but NOT `transfer-encoding`, which passes through) from the
outbound request to the local server; on the response side the client drops
`transfer-encoding` and `connection`, and the relay filters all three
hop-by-hop headers when echoing to the visitor. -/
theorem c7_amended (hs rh : List (String × String)) :
    mapGet "host" (clientOutboundHeaders hs) = none ∧
    mapGet "connection" (clientOutboundHeaders hs) = none ∧
    mapGet "keep-alive" (clientOutboundHeaders hs) = none ∧
    mapGet "transfer-encoding" (clientOutboundHeaders hs) = mapGet "transfer-encoding" hs ∧
    mapGet "transfer-encoding" (clientResponseHeaders rh) = none ∧
    mapGet "connection" (clientResponseHeaders rh) = none ∧
    (∀ k v, (k, v) ∈ echoHeadersRelay rh →
      k.toLower ≠ "transfer-encoding" ∧ k.toLower ≠ "connection" ∧
        k.toLower ≠ "keep-alive") := by
  refine ⟨?_, ?_, ?_, ?_, ?_, ?_, ?_⟩
  · unfold clientOutboundHeaders
    rw [mapGet_mapDelete_ne _ _ _ (by decide), mapGet_mapDelete_ne _ _ _ (by decide)]
    exact mapGet_mapDelete_self _ _
  · unfold clientOutboundHeaders
    rw [mapGet_mapDelete_ne _ _ _ (by decide)]
    exact mapGet_mapDelete_self _ _
  · unfold clientOutboundHeaders
    exact mapGet_mapDelete_self _ _
  · unfold clientOutboundHeaders
    rw [mapGet_mapDelete_ne _ _ _ (by decide), mapGet_mapDelete_ne _ _ _ (by decide),
        mapGet_mapDelete_ne _ _ _ (by decide)]
  · unfold clientResponseHeaders
    rw [mapGet_mapDelete_ne _ _ _ (by decide)]
    exact mapGet_mapDelete_self _ _
  · unfold clientResponseHeaders
    exact mapGet_mapDelete_self _ _
  · intro k v hkv
    unfold echoHeadersRelay at hkv
    have hpred := (List.mem_filter.mp hkv).2
    refine ⟨?_, ?_, ?_⟩ <;>
      (intro heq; rw [heq] at hpred; simp at hpred)

/-- Witness for C7: with a concrete request header map, `transfer-encoding`
passes through to the local server while `connection` is removed; a benign
response header survives relay echoing. -/
theorem c7_witness :
    mapGet "transfer-encoding"
        (clientOutboundHeaders [("transfer-encoding", "chunked"), ("connection", "close")]) =
      some "chunked" ∧
    mapGet "connection"
        (clientOutboundHeaders [("transfer-encoding", "chunked"), ("connection", "close")]) =
      none := by
  have h := c7_amended [("transfer-encoding", "chunked"), ("connection", "close")] []
  refine ⟨?_, h.2.1⟩
  rw [h.2.2.2.1]
  decide

/-- Claim C8 (counterexample to the claim as stated): the host
`x.onrender.com.evil.example` CONTAINS the substring `.onrender.com` but does
not match it as a suffix; the relay (with `USE_HTTPS` unset) still derives
`https://x.onrender.com.evil.example`, not the relay-scheme URL the
suffix-match reading requires. -/
theorem c8_counterexample :
    getBaseUrl cfgDefault (some "x.onrender.com.evil.example") "ip" =
      "https://x.onrender.com.evil.example" ∧
    cloudSuffixMatch "x.onrender.com.evil.example" = false ∧
    schemeStr cfgDefault ++ "://" ++ "x.onrender.com.evil.example" ≠
      "https://x.onrender.com.evil.example" := by
  refine ⟨?_, ?_, ?_⟩ <;> decide

/-- Claim C8 (amended): with no `public_url` and a non-empty Host header, the
base URL is `https://<host>` iff the host CONTAINS one of the fixed
cloud-platform substrings (not: matches one as a suffix); otherwise it is
`<relay scheme>://<host>`. -/
theorem c8_amended (cfg : Config) (h lanIp : String)
    (hpub : cfg.publicUrl = "") (hh : h ≠ "") :
    (cloudPatterns.any (fun p => strIncludes h p) = true →
      getBaseUrl cfg (some h) lanIp = "https://" ++ h) ∧
    (cloudPatterns.any (fun p => strIncludes h p) = false →
      getBaseUrl cfg (some h) lanIp = schemeStr cfg ++ "://" ++ h) := by
  constructor <;> intro hc <;> simp [getBaseUrl, hpub, hh, hc]

/-- Witness for C8: a genuine Render host gets the `https` scheme. -/
theorem c8_witness :
    getBaseUrl cfgDefault (some "myapp.onrender.com") "ip" = "https://myapp.onrender.com" :=
  (c8_amended cfgDefault "myapp.onrender.com" "ip" rfl (by decide)).1 (by decide)

/-- Claim C9 (confirmed): a `response` frame that matches a pending record
resolves it with defaults for missing or falsy fields — `statusCode || 200`,
`headers` or empty, `body` or empty string — removes the record, and the
visitor reply head is built from exactly these defaulted values (with the
hop-by-hop filter applied to the defaulted headers). -/
theorem c9_defaults (conn : TunnelConnection) (rid : String) (rec : PendingRequest)
    (sc : Option Nat) (hd : Option (List (String × String))) (bd : Option String)
    (hp : mapGet rid conn.pendingRequests = some rec) :
    handleTunnelResponse conn ⟨rid, sc, hd, bd⟩ =
      ({ conn with pendingRequests := mapDelete rid conn.pendingRequests },
       some { statusCode := jsOrNat sc 200, headers := hd.getD [], body := bd.getD "" }) ∧
    visitorReplyHead { statusCode := jsOrNat sc 200, headers := hd.getD [], body := bd.getD "" } =
      (jsOrNat sc 200, echoHeadersRelay (hd.getD [])) := by
  refine ⟨?_, rfl⟩
  unfold handleTunnelResponse
  rw [show (⟨rid, sc, hd, bd⟩ : ResponseMessage).requestId = rid from rfl, hp]

/-- Witness for C9: a frame with all fields missing resolves the pending
record `r1` with status 200, empty headers and empty body. -/
theorem c9_witness :
    handleTunnelResponse connPend ⟨"r1", none, none, none⟩ =
      ({ connPend with pendingRequests := mapDelete "r1" connPend.pendingRequests },
       some { statusCode := 200, headers := [], body := "" }) := by
  have h := (c9_defaults connPend "r1" ⟨5⟩ none none none (by decide)).1
  simpa [jsOrNat] using h

set_option maxRecDepth 100000 in
/-- Claim C10 (confirmed): the extra WebSocket transformation applies exactly
when the forwarded path contains `@vite/client`: the prelude saving
`window.__OrigWS` is prepended and every `new WebSocket(` occurrence is
replaced by the try/catch wrapper (whose fallback object has `readyState: 3`
and no-op methods); other paths get only the base rewrites. -/
theorem c10_vite (slug path js : String) :
    (hasSubList ['@', 'v', 'i', 't', 'e', '/', 'c', 'l', 'i', 'e', 'n', 't'] path.data = false →
      rewriteJs slug path js = String.mk (rewriteJsBaseL slug.data js.data)) ∧
    (hasSubList ['@', 'v', 'i', 't', 'e', '/', 'c', 'l', 'i', 'e', 'n', 't'] path.data = true →
      rewriteJs slug path js =
        String.mk (runScan tryNewWs (vitePrelude.data ++ rewriteJsBaseL slug.data js.data))) ∧
    rewriteJs "x" "/@vite/client" "const s = new WebSocket(url); new  WebSocket (u2);" =
      vitePrelude ++ "const s = " ++ viteWrapper ++ "url); " ++ viteWrapper ++ "u2);" ∧
    rewriteJs "x" "/app.js" "const s = new WebSocket(url); new  WebSocket (u2);" =
      "const s = new WebSocket(url); new  WebSocket (u2);" := by
  refine ⟨fun hc => ?_, fun hc => ?_, ?_, ?_⟩
  · simp [rewriteJs, rewriteJsL, hc]
  · simp [rewriteJs, rewriteJsL, hc]
  · decide
  · decide

/-- Witness for C10: a path without `@vite/client` receives only the base
rewrites. -/
theorem c10_witness :
    rewriteJs "x" "/app.js" "let a = 1" =
      String.mk (rewriteJsBaseL ("x" : String).data (("let a = 1" : String)).data) :=
  (c10_vite "x" "/app.js" "let a = 1").1 (by decide)

end OpenTunnel
